import Mathlib

/-!
# Verification of the nms-scraper pipeline

Shallow embedding of the data model and operations of the `nms-scraper`
repository (wiki markup scraper: recipe-line parsing, item classification,
name resolution, persistence and export), together with theorems settling
the specification claims.

Strings are modelled as Lean `String`s over their `List Char` data; Python
string primitives (`split`, `strip`, `lower`, `in`, `isdigit`, `int`,
`float`) are modelled by explicit executable functions below.  SQLite
tables are modelled as Lean lists of row structures; floats that only ever
carry exactly parsed decimal literals are modelled as rationals.
-/

namespace NMS

/-- Python whitespace characters (ASCII subset relevant to `str.strip`,
`int()`/`float()` whitespace tolerance and the regex class `\s`). -/
def pyIsSpace (c : Char) : Bool :=
  c == ' ' || c == '\t' || c == '\n' || c == '\r' || c == '\x0b' || c == '\x0c'

/-- ASCII decimal digit, modelling Python `str.isdigit` membership for the
ASCII strings handled by this repository. -/
def isDigitC (c : Char) : Bool :=
  '0' ≤ c && c ≤ '9'

/-- ASCII letter test (regex classes `[a-zA-Z]`). -/
def isAsciiAlpha (c : Char) : Bool :=
  ('a' ≤ c && c ≤ 'z') || ('A' ≤ c && c ≤ 'Z')

/-- ASCII alphanumeric test (regex class `[a-zA-Z0-9]`). -/
def isAsciiAlnum (c : Char) : Bool :=
  isAsciiAlpha c || isDigitC c

/-- ASCII lower-casing of one character, modelling Python `str.lower` on the
ASCII data this repository handles. -/
def toLowerC (c : Char) : Char :=
  if 'A' ≤ c && c ≤ 'Z' then Char.ofNat (c.toNat + 32) else c

/-- ASCII upper-casing of one character (for Python `str.title`). -/
def toUpperC (c : Char) : Char :=
  if 'a' ≤ c && c ≤ 'z' then Char.ofNat (c.toNat - 32) else c

/-- Python `s.lower()`. -/
def pyLower (s : String) : String :=
  String.mk (s.data.map toLowerC)

/-- Strip leading Python whitespace from a character list. -/
def dropSpacesL (l : List Char) : List Char :=
  l.dropWhile pyIsSpace

/-- Python `s.strip()` on a character list. -/
def pyStripL (l : List Char) : List Char :=
  ((dropSpacesL l).reverse.dropWhile pyIsSpace).reverse

/-- Python `s.strip()`. -/
def pyStrip (s : String) : String :=
  String.mk (pyStripL s.data)

/-- Auxiliary for `pySplit`: splits a character list at every occurrence of
`c`, accumulating the current chunk in reverse. -/
def splitChunks (c : Char) : List Char → List Char → List (List Char)
  | [], acc => [acc.reverse]
  | x :: xs, acc =>
    if x == c then acc.reverse :: splitChunks c xs []
    else splitChunks c xs (x :: acc)

/-- Python `s.split(c)` for a one-character separator: always returns at
least one chunk, and `"".split(c) == [""]`. -/
def pySplit (c : Char) (s : String) : List String :=
  (splitChunks c s.data []).map String.mk

/-- Split a character list at the first occurrence of `c`;
`none` when `c` does not occur.  Models Python `s.split(c, 1)` guarded by
`c in s`. -/
def splitOnceL (c : Char) : List Char → Option (List Char × List Char)
  | [] => none
  | x :: xs =>
    if x == c then some ([], xs)
    else (splitOnceL c xs).map (fun p => (x :: p.1, p.2))

/-- String version of `splitOnceL`. -/
def splitOnceStr (c : Char) (s : String) : Option (String × String) :=
  (splitOnceL c s.data).map (fun p => (String.mk p.1, String.mk p.2))

/-- The part of `s` before the first occurrence of `c` (all of `s` when `c`
does not occur) — statement vocabulary for decomposition claims. -/
def beforeFirst (c : Char) (s : String) : String :=
  ((splitOnceStr c s).map Prod.fst).getD s

/-- The part of `s` after the first occurrence of `c` (empty when `c` does
not occur). -/
def afterFirst (c : Char) (s : String) : String :=
  ((splitOnceStr c s).map Prod.snd).getD ""

/-- Split a character list at the last occurrence of `c`
(Python `s.rsplit(c, 1)` guarded by `c in s`). -/
def rsplitOnceStr (c : Char) (s : String) : Option (String × String) :=
  ((splitOnceL c s.data.reverse).map
    (fun p => (String.mk p.2.reverse, String.mk p.1.reverse)))

/-- Python `c in s` for a character. -/
def containsChar (c : Char) (s : String) : Bool :=
  s.data.contains c

/-- Does the needle occur at the head of the haystack? -/
def startsWithL : List Char → List Char → Bool
  | _, [] => true
  | [], _ :: _ => false
  | a :: as, b :: bs => a == b && startsWithL as bs

/-- Substring occurrence on character lists (Python `sub in hay`). -/
def hasSubL (hay sub : List Char) : Bool :=
  startsWithL hay sub ||
    match hay with
    | [] => false
    | _ :: rest => hasSubL rest sub

/-- Python `sub in hay` on strings. -/
def hasSub (hay sub : String) : Bool :=
  hasSubL hay.data sub.data

/-- Models `pre` is a prefix of `s` (used to state `missing_*` pattern claims). -/
def strStartsWith (s pre : String) : Bool :=
  startsWithL s.data pre.data

/-- Python `str.isdigit` (ASCII): nonempty and all characters digits. -/
def pyIsDigit (s : String) : Bool :=
  !s.data.isEmpty && s.data.all isDigitC

/-- Numeric value of a digit string. -/
def digitsToNat (l : List Char) : Nat :=
  l.foldl (fun n c => 10 * n + (c.toNat - '0'.toNat)) 0

/-- Numeric value of a digit `String` (Python `int(s)` when `s.isdigit()`). -/
def digitsVal (s : String) : Nat :=
  digitsToNat s.data

/-- Python `int(s)`: optional surrounding whitespace, optional sign, then a
nonempty run of digits.  `none` models a raised `ValueError`.
(Underscore digit separators accepted by CPython are not modelled; none of
the repository's data uses them.) -/
def pyInt? (s : String) : Option Int :=
  let l := pyStripL s.data
  let core : List Char → Option Nat := fun r =>
    if r.isEmpty then none
    else if r.all isDigitC then some (digitsToNat r) else none
  match l with
  | '-' :: r => (core r).map (fun n => -(n : Int))
  | '+' :: r => (core r).map (fun n => (n : Int))
  | r => (core r).map (fun n => (n : Int))

/-- Exact rational value of a decimal literal made of digits with at most
one point (the only shape the scraper ever passes to Python `float`). -/
def decimalVal (l : List Char) : ℚ :=
  match splitOnceL '.' l with
  | none => (digitsToNat l : ℚ)
  | some (a, b) => (digitsToNat a : ℚ) + (digitsToNat b : ℚ) / (10 : ℚ) ^ b.length

/-- Exact rational value of a decimal literal `String`. -/
def decimalValStr (s : String) : ℚ :=
  decimalVal s.data

/-- The scraper's guard before calling `float` on a time component:
`time_part.replace('.', '').isdigit()`. -/
def floatGuard (s : String) : Bool :=
  let noDots := s.data.filter (fun c => c != '.')
  !noDots.isEmpty && noDots.all isDigitC

/-- Number of decimal points in a string. -/
def dotCount (s : String) : Nat :=
  s.data.count '.'

/-- Models `time_seconds = float(time_part) if time_part.replace('.','').isdigit()
else default`, with `ValueError` (more than one point) also falling back to
the default — the exact time-parsing expression of `save_refinery_recipes`
and `save_cooking_recipes`. -/
def timeSecondsOf (dflt : ℚ) (timePart : String) : ℚ :=
  if floatGuard timePart && decide (dotCount timePart ≤ 1) then decimalValStr timePart
  else dflt

/-! ## Item classifier (`NMSScraper.classify_item`, src/nms_scraper.py) -/

/-- The argument of `classify_item`: the `item_data` dictionary fields the
classifier reads.  `description` and `title` are optional (the code guards
them with `or ''`); the infobox is a key/value mapping. -/
structure ItemData where
  infobox : List (String × String)
  description : Option String
  title : Option String
  categories : List String

/-- Models `infobox.get(key)` followed by `or ''` (absent key or `None` value
becomes the empty string). -/
def infoGet (infobox : List (String × String)) (key : String) : String :=
  ((infobox.find? (fun p => p.1 == key)).map (fun p => p.2)).getD ""

/-- The lower-cased fields `classify_item` computes before its cascade. -/
structure LoweredFields where
  item_type : String
  category : String
  used_for : String
  description : String
  title : String
  categories : List String

/-- Field extraction and lower-casing at the top of `classify_item`. -/
def lowerFields (d : ItemData) : LoweredFields :=
  { item_type := pyLower (infoGet d.infobox "type")
    category := pyLower (infoGet d.infobox "category")
    used_for := pyLower (infoGet d.infobox "used")
    description := pyLower (d.description.getD "")
    title := pyLower (d.title.getD "")
    categories := d.categories.map pyLower }

/-- Models `any(keyword in field for keyword in kws)` (substring tests). -/
def anySub (field : String) (kws : List String) : Bool :=
  kws.any (fun k => hasSub field k)

/-- Models `any(keyword in categories for keyword in kws)` — list membership, not
substring, when the right-hand side is the categories list. -/
def anyMem (cats : List String) (kws : List String) : Bool :=
  kws.any (fun k => cats.contains k)

/-- Group 1 predicate of `classify_item`: raw materials. -/
def rawMaterialsPred (f : LoweredFields) : Bool :=
  anySub f.item_type ["element", "mineral", "substance", "fuel", "catalyst", "gas"]
  || anyMem f.categories ["raw materials", "fuel elements", "special elements", "earth elements"]
  || anySub f.title ["carbon", "ferrite", "sodium", "oxygen", "cobalt", "cadmium", "emeril", "indium"]

/-- Group 2 predicate: fish. -/
def fishPred (f : LoweredFields) : Bool :=
  hasSub f.item_type "fish" || hasSub f.category "fish"
  || f.categories.any (fun c => hasSub c "fish")
  || hasSub f.title "fish"

/-- Group 3 predicate: cooking (Python `and` binds tighter than `or`). -/
def cookingPred (f : LoweredFields) : Bool :=
  anySub f.item_type ["edible", "food", "ingredient", "nutrient", "meal", "drink", "bait", "larva", "grub"]
  || hasSub f.used_for "cooking"
  || hasSub f.category "edible"
  || (f.category == "consumable"
      && anySub f.description ["nutrient processor", "processable", "edible", "food", "cooking"])
  || (anySub f.description
        ["edible", "food", "meal", "cooking", "nutrient processor", "eat", "consume", "processable"]
      && !anySub f.item_type ["technology", "platform", "upgrade", "module"])

/-- Group 4 predicate: nutrient processor. -/
def nutrientProcessorPred (f : LoweredFields) : Bool :=
  anySub f.description ["nutrient processor", "cooking station", "food processor"]
  || hasSub f.title "nutrient processor"

/-- Group 5 predicate: products. -/
def productsPred (f : LoweredFields) : Bool :=
  anySub f.category ["product", "consumable", "container", "component"]
  || anySub f.item_type ["product", "manufactured", "crafted", "agricultural product"]
  || (hasSub f.used_for "crafting" && !hasSub f.used_for "upgrading")

/-- Group 6 predicate: trade. -/
def tradePred (f : LoweredFields) : Bool :=
  anySub f.item_type ["trade commodity", "valuable"]
  || (f.category == "tradeable" && !hasSub f.item_type "product")
  || (hasSub f.description "trade" && !hasSub f.description "crafted")

/-- Group 7 predicate: buildings. -/
def buildingsPred (f : LoweredFields) : Bool :=
  anySub f.item_type
    ["construction", "building", "base", "structure", "decoration", "interior", "freighter construction"]
  || anySub f.category ["base building", "construction", "building"]
  || anySub f.used_for ["building", "construction"]
  || anySub f.description
    ["base building", "construction", "structure", "build", "fabricated", "habitable", "freighter equipment"]
  || anySub f.title ["corridor", "room", "door", "wall", "floor", "roof", "window"]

/-- Group 8 predicate: technology. -/
def technologyPred (f : LoweredFields) : Bool :=
  anySub f.item_type ["technology", "platform", "upgrade", "blueprint"]
  || anySub f.category ["technology", "blueprint"]
  || anySub f.used_for ["upgrading", "technology"]
  || anyMem f.categories ["technology", "blueprints", "constructed technology"]
  || (anySub f.title ["scanner", "drive", "engine", "upgrade", "blueprint"]
      && !hasSub f.title "room")
  || (hasSub f.item_type "module" && !hasSub f.item_type "construction"
      && !hasSub f.category "building")

/-- Group 9 predicate: curiosities. -/
def curiositiesPred (f : LoweredFields) : Bool :=
  anySub f.item_type ["artifact", "curiosity", "relic", "treasure", "sample"]
  || anySub f.category ["curiosity", "artifact"]
  || anyMem f.categories ["curiosity", "artifact"]
  || anySub f.title ["artifact", "relic", "treasure", "sample", "fossil"]

/-- Models `classify_item` (src/nms_scraper.py): the ordered if/elif cascade. -/
def classify_item (d : ItemData) : String :=
  let f := lowerFields d
  if rawMaterialsPred f then "rawMaterials"
  else if fishPred f then "fish"
  else if cookingPred f then "cooking"
  else if nutrientProcessorPred f then "nutrientProcessor"
  else if productsPred f then "products"
  else if tradePred f then "trade"
  else if buildingsPred f then "buildings"
  else if technologyPred f then "technology"
  else if curiositiesPred f then "curiosities"
  else "others"

/-- The spec's canonical cascade as an explicit ordered list of
(predicate, label) pairs. -/
def canonicalCascade : List ((LoweredFields → Bool) × String) :=
  [(rawMaterialsPred, "rawMaterials"),
   (fishPred, "fish"),
   (cookingPred, "cooking"),
   (nutrientProcessorPred, "nutrientProcessor"),
   (productsPred, "products"),
   (tradePred, "trade"),
   (buildingsPred, "buildings"),
   (technologyPred, "technology"),
   (curiositiesPred, "curiosities")]

/-- First-match evaluation of an ordered cascade, with a default label. -/
def firstMatchLabel : List ((LoweredFields → Bool) × String) → String → LoweredFields → String
  | [], dflt, _ => dflt
  | (p, lbl) :: rest, dflt, f =>
    if p f then lbl else firstMatchLabel rest dflt f

/-- The input of the C2 scenario: title `"Carbon"`, infobox
`{type: "element"}`. -/
def carbonItem : ItemData :=
  { infobox := [("type", "element")]
    description := none
    title := some "Carbon"
    categories := [] }

/-! ## Persistence layer: SQLite tables as lists of rows -/

/-- One row of the `items` table (columns of `init_database`, sans the
timestamp bookkeeping columns; the TEXT-serialized `infobox` and
`categories` JSON blobs are modelled structurally, `json.dumps`/`json.loads`
being inverse on them). -/
structure ItemRow where
  id : String
  title : String
  summary : Option String
  game_description : Option String
  source_info : Option String
  use_info : Option String
  release_history : Option String
  additional_info : Option String
  fishing_info : Option String
  progression_info : Option String
  typ : String
  group_name : String
  value : Option ℚ
  infobox : List (String × String)
  categories : List String
deriving DecidableEq

/-- One row of `refinery_recipes` / `cooking_recipes` (the AUTOINCREMENT
surrogate key and timestamp are bookkeeping; `recipe_id` is the UNIQUE key
the code addresses rows by). -/
structure RecipeRow where
  recipe_id : String
  output_item_id : String
  time_seconds : ℚ
  operation : String
deriving DecidableEq

/-- One row of `refinery_ingredients` / `cooking_ingredients`. -/
structure IngredientRow where
  recipe_id : String
  ingredient_item_id : String
  quantity : Nat
deriving DecidableEq

/-- A recipe table pair (recipes plus their ingredient join table). -/
structure RecipeDb where
  recipes : List RecipeRow
  ingredients : List IngredientRow
deriving DecidableEq

/-- The whole database. -/
structure DbState where
  items : List ItemRow
  refinery : RecipeDb
  cooking : RecipeDb
deriving DecidableEq

/-- SQLite `INSERT OR REPLACE` on a UNIQUE `recipe_id` column: the
conflicting row is deleted and the new row inserted. -/
def insertOrReplace (rows : List RecipeRow) (row : RecipeRow) : List RecipeRow :=
  rows.filter (fun r => r.recipe_id != row.recipe_id) ++ [row]

/-! ## Name resolver (`_get_item_id_by_name`, `_resolve_item_name_to_id`) -/

/-- Models `SELECT id FROM items WHERE title = ?` with `fetchone` (first matching
row in table order). -/
def getItemIdByName (items : List ItemRow) (name : String) : Option String :=
  (items.find? (fun r => r.title == name)).map (fun r => r.id)

/-- Models `SELECT id FROM items WHERE LOWER(title) = LOWER(?)`. -/
def findCaseInsensitive (items : List ItemRow) (name : String) : Option String :=
  (items.find? (fun r => pyLower r.title == pyLower name)).map (fun r => r.id)

/-- SQL `LIKE` matching: `%` matches any run, `_` any single character
(pattern first, text second). -/
def likeMatch : List Char → List Char → Bool
  | [], t => t.isEmpty
  | '%' :: ps, t =>
    likeMatch ps t ||
      match t with
      | [] => false
      | _ :: ts => likeMatch ('%' :: ps) ts
  | '_' :: ps, t =>
    (match t with
     | [] => false
     | _ :: ts => likeMatch ps ts)
  | p :: ps, t =>
    (match t with
     | [] => false
     | c :: ts => p == c && likeMatch ps ts)
termination_by p t => (p.length, t.length)

/-- Models `SELECT id FROM items WHERE LOWER(title) LIKE LOWER('%name%')`. -/
def findLike (items : List ItemRow) (name : String) : Option String :=
  (items.find? (fun r =>
    likeMatch (pyLower ("%" ++ name ++ "%")).data (pyLower r.title).data)).map
    (fun r => r.id)

/-- Models `name.lower().replace(' ', '_').replace('-', '_')` — the normalization
used to synthesize `missing_*` placeholder ids. -/
def pyNormalizeName (name : String) : String :=
  String.mk ((pyLower name).data.map
    (fun c => if c == ' ' then '_' else c) |>.map
    (fun c => if c == '-' then '_' else c))

/-- Stages 2–4 of `_resolve_item_name_to_id`: case-insensitive match,
partial `LIKE` match, then the synthesized placeholder. -/
def resolveFallback (items : List ItemRow) (name : String) : String :=
  match findCaseInsensitive items name with
  | some i => i
  | none =>
    match findLike items name with
    | some i => i
    | none => "missing_" ++ pyNormalizeName name

/-- Models `_resolve_item_name_to_id` (src/nms_scraper.py): empty name short-cut,
exact match (falling through when the stored id is the falsy empty string),
then `resolveFallback`. -/
def resolveItemNameToId (items : List ItemRow) (name : String) : String :=
  if name == "" then "missing_unknown"
  else
    match getItemIdByName items name with
    | some i => if i != "" then i else resolveFallback items name
    | none => resolveFallback items name

/-! ## `save_item_to_db` and `extract_value_from_infobox` -/

/-- Leftmost-anchored match of the regex `[\d,]+\.?\d*` at the head of the
list: a nonempty run of digits/commas, an optional point, then digits. -/
def numTokenAt (l : List Char) : Option (List Char) :=
  let a := l.takeWhile (fun c => isDigitC c || c == ',')
  if a.isEmpty then none
  else
    match l.drop a.length with
    | '.' :: r2 => some (a ++ '.' :: r2.takeWhile isDigitC)
    | _ => some a

/-- Models `re.search(r'[\d,]+\.?\d*', s)`: leftmost match. -/
def findNumToken : List Char → Option (List Char)
  | [] => none
  | x :: rest =>
    match numTokenAt (x :: rest) with
    | some t => some t
    | none => findNumToken rest

/-- Models `extract_value_from_infobox`: the infobox `value` field, commas removed
and stripped, searched for a numeric token which is then read as a float. -/
def extract_value_from_infobox (infobox : List (String × String)) : Option ℚ :=
  let valueStr := infoGet infobox "value"
  if valueStr == "" then none
  else
    let cleaned := pyStripL (valueStr.data.filter (fun c => c != ','))
    match findNumToken cleaned with
    | some tok => some (decimalVal (tok.filter (fun c => c != ',')))
    | none => none

/-- The `item_data` dictionary as consumed by `save_item_to_db`. -/
structure PageData where
  id : String
  title : String
  summary : Option String
  game_description : Option String
  source_info : Option String
  use_info : Option String
  release_history : Option String
  additional_info : Option String
  fishing_info : Option String
  progression_info : Option String
  infobox : List (String × String)
  categories : List String
deriving DecidableEq

/-- The row `save_item_to_db` writes for `item_data` and a group. -/
def writeRow (d : PageData) (group : String) : ItemRow :=
  { id := d.id
    title := d.title
    summary := d.summary
    game_description := d.game_description
    source_info := d.source_info
    use_info := d.use_info
    release_history := d.release_history
    additional_info := d.additional_info
    fishing_info := d.fishing_info
    progression_info := d.progression_info
    typ := infoGet d.infobox "type"
    group_name := group
    value := extract_value_from_infobox d.infobox
    infobox := d.infobox
    categories := d.categories }

/-- Models `save_item_to_db`: `REPLACE INTO items` keyed by the primary key `id` —
any existing row with that id is deleted and the new row inserted. -/
def saveItemToDb (st : DbState) (d : PageData) (group : String) : DbState :=
  { st with items := st.items.filter (fun r => r.id != d.id) ++ [writeRow d group] }

/-! ## `save_refinery_recipes` and `save_cooking_recipes` -/

/-- Models `parts[-1]` with Python negative indexing (empty default; `split` never
returns an empty list). -/
def lastD (parts : List String) : String :=
  parts.getLastD ""

/-- Models `parts[-2]` (meaningful under the `len(parts) >= 3` guard). -/
def secondLastD (parts : List String) : String :=
  parts.dropLast.getLastD ""

/-- Models `recipe_id = f"ref_{item_id}_{i+1}"`. -/
def refRecipeId (itemId : String) (i : Nat) : String :=
  "ref_" ++ itemId ++ "_" ++ toString (i + 1)

/-- Models `recipe_id = f"cook_{item_id}_{i+1}"`. -/
def cookRecipeId (itemId : String) (i : Nat) : String :=
  "cook_" ++ itemId ++ "_" ++ toString (i + 1)

/-- Split `Time%Operation` at the first `%` (operation stripped), falling
back to the kind-specific literal operation when no `%` is present. -/
def timeOpSplit (dfltOp : String) (timeOperationPart : String) : String × String :=
  match splitOnceStr '%' timeOperationPart with
  | some (t, op) => (t, pyStrip op)
  | none => (timeOperationPart, dfltOp)

/-- The `refinery_recipes` row inserted by `save_refinery_recipes` for one
line: output is always the owning page's `item_id`; default operation
`"Refining"`, default duration `1.0`. -/
def refineryRowOf (itemId : String) (i : Nat) (line : String) : RecipeRow :=
  let parts := pySplit ';' line
  let top := timeOpSplit "Refining" (lastD parts)
  { recipe_id := refRecipeId itemId i
    output_item_id := itemId
    time_seconds := timeSecondsOf 1 top.1
    operation := top.2 }

/-- The `cooking_recipes` row inserted by `save_cooking_recipes` for one
line: default operation `"Cooking"`, default duration `2.5`. -/
def cookingRowOf (itemId : String) (i : Nat) (line : String) : RecipeRow :=
  let parts := pySplit ';' line
  let top := timeOpSplit "Cooking" (lastD parts)
  { recipe_id := cookRecipeId itemId i
    output_item_id := itemId
    time_seconds := timeSecondsOf (5/2) top.1
    operation := top.2 }

/-- The ingredient row `save_refinery_recipes` inserts for one ingredient
component: only components containing a comma are inserted; the part before
the first comma is stripped and resolved, the part after it kept verbatim
with default quantity 1 when not a digit string. -/
def refIngredientOf (items : List ItemRow) (rid : String) (part : String) :
    Option IngredientRow :=
  if containsChar ',' part then
    match splitOnceStr ',' part with
    | some (n, q) =>
      some { recipe_id := rid
             ingredient_item_id := resolveItemNameToId items (pyStrip n)
             quantity := if pyIsDigit q then digitsVal q else 1 }
    | none => none
  else none

/-- The ingredient row `save_cooking_recipes` inserts: like the refinery
case but the quantity is stripped before parsing, and the row is only
inserted when the resolved id is truthy (nonempty). -/
def cookIngredientOf (items : List ItemRow) (rid : String) (part : String) :
    Option IngredientRow :=
  if containsChar ',' part then
    match splitOnceStr ',' part with
    | some (n, q) =>
      let ingId := resolveItemNameToId items (pyStrip n)
      if ingId != "" then
        some { recipe_id := rid
               ingredient_item_id := ingId
               quantity := if pyIsDigit (pyStrip q) then digitsVal (pyStrip q) else 1 }
      else none
    | none => none
  else none

/-- Models `output_qty = int(parts[-2]) if parts[-2].isdigit() else 1` in
`save_refinery_recipes` — computed and then never stored. -/
def refineryOutputQty (line : String) : Nat :=
  let parts := pySplit ';' line
  let p := secondLastD parts
  if pyIsDigit p then digitsVal p else 1

/-- The output-quantity local of `save_cooking_recipes` — also never
stored. -/
def cookingOutputQty (line : String) : Nat :=
  refineryOutputQty line

/-- The ingredient rows of one refinery recipe line
(`ingredient_parts = parts[:-2]`). -/
def refineryIngRowsOf (items : List ItemRow) (itemId : String) (i : Nat)
    (line : String) : List IngredientRow :=
  let parts := pySplit ';' line
  (parts.take (parts.length - 2)).filterMap (refIngredientOf items (refRecipeId itemId i))

/-- The ingredient rows of one cooking recipe line. -/
def cookingIngRowsOf (items : List ItemRow) (itemId : String) (i : Nat)
    (line : String) : List IngredientRow :=
  let parts := pySplit ';' line
  (parts.take (parts.length - 2)).filterMap (cookIngredientOf items (cookRecipeId itemId i))

/-- One iteration of the `save_refinery_recipes` loop: lines with fewer
than 3 semicolon-separated parts are skipped (`continue`); otherwise the
recipe row is upserted and the ingredient rows appended. -/
def refineryLineStep (items : List ItemRow) (itemId : String) (i : Nat)
    (line : String) (st : RecipeDb) : RecipeDb :=
  let parts := pySplit ';' line
  if parts.length < 3 then st
  else
    { recipes := insertOrReplace st.recipes (refineryRowOf itemId i line)
      ingredients := st.ingredients ++ refineryIngRowsOf items itemId i line }

/-- One iteration of the `save_cooking_recipes` loop. -/
def cookingLineStep (items : List ItemRow) (itemId : String) (i : Nat)
    (line : String) (st : RecipeDb) : RecipeDb :=
  let parts := pySplit ';' line
  if parts.length < 3 then st
  else
    { recipes := insertOrReplace st.recipes (cookingRowOf itemId i line)
      ingredients := st.ingredients ++ cookingIngRowsOf items itemId i line }

/-- Models `for i, recipe_line in enumerate(recipe_lines)` starting at index `i`. -/
def saveRecipesAux (step : Nat → String → RecipeDb → RecipeDb) :
    Nat → List String → RecipeDb → RecipeDb
  | _, [], st => st
  | i, l :: ls, st => saveRecipesAux step (i + 1) ls (step i l st)

/-- Models `save_refinery_recipes(item_id, recipe_lines)` over the database. -/
def saveRefineryRecipes (st : DbState) (itemId : String) (lines : List String) :
    DbState :=
  { st with refinery := saveRecipesAux (refineryLineStep st.items itemId) 0 lines st.refinery }

/-- Models `save_cooking_recipes(item_id, recipe_lines)` over the database. -/
def saveCookingRecipes (st : DbState) (itemId : String) (lines : List String) :
    DbState :=
  { st with cooking := saveRecipesAux (cookingLineStep st.items itemId) 0 lines st.cooking }

/-! ## Refinery extractor (`src/extractors/refinery_extractor.py`) -/

/-- One parsed input of `parse_poc_refine_line`. -/
structure PocInput where
  id : String
  name : String
  quantity : Int
deriving DecidableEq

/-- The parsed output descriptor of `parse_poc_refine_line`. -/
structure PocOutput where
  id : String
  name : String
  quantity : Int
deriving DecidableEq

/-- The recipe dictionary returned by `parse_poc_refine_line` (the time is
kept as the raw string there). -/
structure PocRecipe where
  inputs : List PocInput
  output : PocOutput
  time : String
  operation : String
deriving DecidableEq

/-- Python dict lookup in the extractor's `item_id_cache`. -/
def cacheLookup (cache : List (String × String)) (k : String) : Option String :=
  (cache.find? (fun p => p.1 == k)).map (fun p => p.2)

/-- Models `re.sub(r'[^a-zA-Z0-9]', '', name.lower())`. -/
def pyAlnumNorm (s : String) : String :=
  String.mk ((pyLower s).data.filter isAsciiAlnum)

/-- Models `RefineryExtractor.get_item_id`: exact, lower-cased, alphanumeric
normalized, then bidirectional-substring lookup over the cache in
insertion order. -/
def get_item_id (cache : List (String × String)) (itemName : String) :
    Option String :=
  if itemName == "" then none
  else
    match cacheLookup cache itemName with
    | some i => some i
    | none =>
      match cacheLookup cache (pyLower itemName) with
      | some i => some i
      | none =>
        match cacheLookup cache (pyAlnumNorm itemName) with
        | some i => some i
        | none =>
          (cache.find? (fun p =>
            hasSub p.1 (pyLower itemName) || hasSub (pyLower itemName) p.1)).map
            (fun p => p.2)

/-- Models `f"missing_{name.lower().replace(' ', '_').replace('-', '_')}"`. -/
def placeholderId (name : String) : String :=
  "missing_" ++ pyNormalizeName name

/-- Python `str.title`: upper-case every letter that follows a non-letter,
lower-case the rest (tracking whether the previous character was a
letter). -/
def pyTitleAux : Bool → List Char → List Char
  | _, [] => []
  | prevAlpha, c :: rest =>
    if isAsciiAlpha c then
      (if prevAlpha then toLowerC c else toUpperC c) :: pyTitleAux true rest
    else c :: pyTitleAux false rest

/-- Python `s.title()`. -/
def pyTitle (s : String) : String :=
  String.mk (pyTitleAux false s.data)

/-- Consume a literal at the head of a list, returning the rest. -/
def dropLit : List Char → List Char → Option (List Char)
  | [], l => some l
  | _ :: _, [] => none
  | x :: xs, y :: ys => if x == y then dropLit xs ys else none

/-- Anchored match of the regex `LIT\s+([^,\s]+)`, returning the capture. -/
def matchLitWsTok (lit : List Char) (l : List Char) : Option (List Char) :=
  match dropLit lit l with
  | none => none
  | some rest =>
    let ws := rest.takeWhile pyIsSpace
    if ws.isEmpty then none
    else
      let tok := (rest.drop ws.length).takeWhile (fun c => !pyIsSpace c && c != ',')
      if tok.isEmpty then none else some tok

/-- Models `re.search` of `LIT\s+([^,\s]+)`: the leftmost match's capture. -/
def reSearchLit (lit : List Char) : List Char → Option (List Char)
  | [] => none
  | x :: rest =>
    match matchLitWsTok lit (x :: rest) with
    | some t => some t
    | none => reSearchLit lit rest

/-- The `operation_mappings` dictionary of
`infer_output_from_operation`, in insertion order. -/
def operationMappings : List (String × String) :=
  [("condense carbon", "Condensed Carbon"),
   ("oxygenate carbon", "Oxygen"),
   ("feed microbes", "Condensed Carbon"),
   ("algal processing", "Condensed Carbon"),
   ("harness energy", "Condensed Carbon")]

/-- Models `infer_output_from_operation(operation, inputs)` — `inputs` is accepted
but never read by the code. -/
def infer_output_from_operation (operation : String) (_inputs : List PocInput) :
    Option String :=
  let opLower := pyLower operation
  match operationMappings.find? (fun m => hasSub opLower m.1) with
  | some m => some m.2
  | none =>
    match reSearchLit "create".data opLower.data with
    | some tok => some (pyTitle (String.mk tok))
    | none =>
      match reSearchLit "into".data opLower.data with
      | some tok => some (pyTitle (String.mk tok))
      | none => none

/-- The loop body over `input_parts` in `parse_poc_refine_line`: split at
the last comma, strip the name, `int()` the stripped quantity (a raised
`ValueError` skips the ingredient), then resolve or synthesize a
placeholder id. -/
def pocInputItem (cache : List (String × String)) (part : String) :
    Option PocInput :=
  if containsChar ',' part then
    match rsplitOnceStr ',' part with
    | some (n0, q0) =>
      let n := pyStrip n0
      match pyInt? (pyStrip q0) with
      | some qty =>
        match get_item_id cache n with
        | some i =>
          if i != "" then some { id := i, name := n, quantity := qty }
          else some { id := placeholderId n, name := n, quantity := qty }
        | none => some { id := placeholderId n, name := n, quantity := qty }
      | none => none
    | none => none
  else none

/-- Python `x or default` for an optional string (`None` and the empty
string both fall back). -/
def orDefaultStr (s? : Option String) (d : String) : String :=
  match s? with
  | some s => if s == "" then d else s
  | none => d

/-- Models `parse_poc_refine_line` (src/extractors/refinery_extractor.py): fewer
than 3 semicolon parts yields `None`; inputs are the parts before the last
two; a non-integer output-quantity part raises and yields `None`; the last
part is stripped and split at the first `%`; the output item is inferred
from the operation text; empty inputs or an uninferable output yield
`None`. -/
def parsePocRefineLine (cache : List (String × String)) (line : String) :
    Option PocRecipe :=
  let parts := pySplit ';' line
  if parts.length < 3 then none
  else
    let inputs := (parts.take (parts.length - 2)).filterMap (pocInputItem cache)
    match pyInt? (pyStrip (secondLastD parts)) with
    | none => none
    | some outputQuantity =>
      let timeOperation := pyStrip (lastD parts)
      let tv :=
        match splitOnceStr '%' timeOperation with
        | some (t, op) => (pyStrip t, pyStrip op)
        | none => (timeOperation, "Refining Operation")
      let outputItemName? := infer_output_from_operation tv.2 inputs
      let outputItemId? : Option String :=
        match outputItemName? with
        | none => none
        | some n =>
          match get_item_id cache n with
          | some i => if i != "" then some i else some (placeholderId n)
          | none => some (placeholderId n)
      match outputItemId? with
      | some oid =>
        if !inputs.isEmpty && oid != "" then
          some { inputs := inputs
                 output := { id := oid
                             name := orDefaultStr outputItemName? "Unknown Output"
                             quantity := outputQuantity }
                 time := tv.1
                 operation := "Requested Operation: " ++ tv.2 }
        else none
      | none => none

/-! ## Export layer -/

/-- The record shape `export_group_from_db` serializes per item. -/
structure ItemRecord where
  id : String
  title : String
  summary : Option String
  game_description : Option String
  source_info : Option String
  use_info : Option String
  release_history : Option String
  additional_info : Option String
  fishing_info : Option String
  progression_info : Option String
  typ : String
  value : Option ℚ
  infobox : List (String × String)
  categories : List String
deriving DecidableEq

/-- Row-to-record projection of `export_group_from_db`. -/
def itemToRecord (r : ItemRow) : ItemRecord :=
  { id := r.id
    title := r.title
    summary := r.summary
    game_description := r.game_description
    source_info := r.source_info
    use_info := r.use_info
    release_history := r.release_history
    additional_info := r.additional_info
    fishing_info := r.fishing_info
    progression_info := r.progression_info
    typ := r.typ
    value := r.value
    infobox := r.infobox
    categories := r.categories }

/-- Ordering key of `ORDER BY title`. -/
def itemTitleLE (a b : ItemRow) : Prop :=
  a.title ≤ b.title

instance : DecidableRel itemTitleLE :=
  fun a b => inferInstanceAs (Decidable (a.title ≤ b.title))

instance : IsTotal ItemRow itemTitleLE :=
  ⟨fun a b => le_total a.title b.title⟩

instance : IsTrans ItemRow itemTitleLE :=
  ⟨fun _ _ _ h1 h2 => le_trans h1 h2⟩

/-- Models `export_group_from_db`: the group's rows ordered by title, projected to
records (the written JSON array is this list in order). -/
def exportGroupFromDb (st : DbState) (group : String) : List ItemRecord :=
  (List.insertionSort itemTitleLE (st.items.filter (fun r => r.group_name == group))).map
    itemToRecord

/-- Ordering key of `ORDER BY recipe_id`. -/
def recipeIdLE (a b : RecipeRow) : Prop :=
  a.recipe_id ≤ b.recipe_id

instance : DecidableRel recipeIdLE :=
  fun a b => inferInstanceAs (Decidable (a.recipe_id ≤ b.recipe_id))

instance : IsTotal RecipeRow recipeIdLE :=
  ⟨fun a b => le_total a.recipe_id b.recipe_id⟩

instance : IsTrans RecipeRow recipeIdLE :=
  ⟨fun _ _ _ h1 h2 => le_trans h1 h2⟩

/-- One exported recipe ingredient. -/
structure RecipeIngredientRecord where
  id : String
  name : String
  quantity : Nat
deriving DecidableEq

/-- One exported recipe record (`export_refinery_recipes` /
`export_cooking_recipes`; the duration is stringified with `str()` at
serialization time, which is presentation-only and kept as the value
here). -/
structure RecipeRecord where
  id : String
  inputs : List RecipeIngredientRecord
  output_id : String
  output_name : String
  output_quantity : Nat
  time : ℚ
  operation : String
deriving DecidableEq

/-- Models `LEFT JOIN items` title lookup. -/
def titleOfId (items : List ItemRow) (i : String) : Option String :=
  (items.find? (fun r => r.id == i)).map (fun r => r.title)

/-- Models `row_title or row_id` — the id is the fallback display name. -/
def nameOrId (title? : Option String) (idStr : String) : String :=
  match title? with
  | some t => if t == "" then idStr else t
  | none => idStr

/-- Common body of `export_refinery_recipes` and `export_cooking_recipes`
(the two functions are line-for-line copies over their two table pairs):
recipes ordered by `recipe_id`, ingredients gathered per recipe, output
quantity written as the literal 1. -/
def exportRecipesFrom (items : List ItemRow) (db : RecipeDb) : List RecipeRecord :=
  (List.insertionSort recipeIdLE db.recipes).map (fun r =>
    { id := r.recipe_id
      inputs := (db.ingredients.filter (fun ing => ing.recipe_id == r.recipe_id)).map
        (fun ing =>
          { id := ing.ingredient_item_id
            name := nameOrId (titleOfId items ing.ingredient_item_id) ing.ingredient_item_id
            quantity := ing.quantity })
      output_id := r.output_item_id
      output_name := nameOrId (titleOfId items r.output_item_id) r.output_item_id
      output_quantity := 1
      time := r.time_seconds
      operation := r.operation })

/-- Models `export_refinery_recipes`. -/
def exportRefineryRecipes (st : DbState) : List RecipeRecord :=
  exportRecipesFrom st.items st.refinery

/-- Models `export_cooking_recipes`. -/
def exportCookingRecipes (st : DbState) : List RecipeRecord :=
  exportRecipesFrom st.items st.cooking

/-- An export invocation as a state transition: it reads the database and
returns the serialized records, leaving the database unchanged (the
function only issues SELECTs). -/
def exportGroupRun (st : DbState) (group : String) : List ItemRecord × DbState :=
  (exportGroupFromDb st group, st)

/-- Models `export_refinery_recipes` as a state transition. -/
def exportRefineryRun (st : DbState) : List RecipeRecord × DbState :=
  (exportRefineryRecipes st, st)

/-! ## Driver export loop (`main`, src/nms_scraper.py) and
`export_groups_to_json` (src/nms_export.py) -/

/-- Models `TARGET_GROUPS` in dict insertion order. -/
def targetGroups : List (String × String) :=
  [("buildings", "Buildings.json"),
   ("cooking", "Cooking.json"),
   ("curiosities", "Curiosities.json"),
   ("fish", "Fish.json"),
   ("nutrientProcessor", "NutrientProcessor.json"),
   ("others", "Others.json"),
   ("products", "Products.json"),
   ("rawMaterials", "RawMaterials.json"),
   ("refinery", "Refinery.json"),
   ("technology", "Technology.json"),
   ("trade", "Trade.json")]

/-- The per-item export loop of `main`: for each target group, the file
`data/<file>` is written only when `group_counts[group] > 0`. -/
def mainItemExportFiles (counts : String → Nat) (st : DbState) :
    List (String × List ItemRecord) :=
  targetGroups.filterMap (fun gf =>
    if 0 < counts gf.1 then some ("data/" ++ gf.2, exportGroupFromDb st gf.1)
    else none)

/-- One row of the `items` table as read by `nms_export.py` (that script
targets the sibling scraper's schema, whose rows carry `description` and
`crafting` columns and a nullable `group_name`). -/
structure XItemRow where
  id : String
  title : String
  description : Option String
  typ : String
  infobox : List (String × String)
  crafting : List String
  categories : List String
  group_name : Option String
deriving DecidableEq

/-- The record shape `export_groups_to_json` serializes. -/
structure XItemRecord where
  id : String
  title : String
  description : Option String
  typ : String
  infobox : List (String × String)
  crafting : List String
  categories : List String
deriving DecidableEq

/-- Projection used by `export_groups_to_json`. -/
def xToRecord (r : XItemRow) : XItemRecord :=
  { id := r.id
    title := r.title
    description := r.description
    typ := r.typ
    infobox := r.infobox
    crafting := r.crafting
    categories := r.categories }

/-- Auxiliary for `dedupFirst`, carrying the values already emitted. -/
def dedupFirstAux (seen : List String) : List String → List String
  | [] => []
  | x :: xs =>
    if seen.contains x then dedupFirstAux seen xs
    else x :: dedupFirstAux (x :: seen) xs

/-- Models `SELECT DISTINCT` in scan order: first occurrences kept. -/
def dedupFirst (l : List String) : List String :=
  dedupFirstAux [] l

/-- Ordering key for the sibling schema's `ORDER BY title`. -/
def xTitleLE (a b : XItemRow) : Prop :=
  a.title ≤ b.title

instance : DecidableRel xTitleLE :=
  fun a b => inferInstanceAs (Decidable (a.title ≤ b.title))

/-- Models `SELECT DISTINCT group_name FROM items` with the optional `groups`
filter of `export_groups_to_json` (`WHERE group_name IS NOT NULL` /
`WHERE group_name IN (...)`). -/
def availableGroups (db : List XItemRow) (groups : Option (List String)) :
    List String :=
  match groups with
  | some gs =>
    dedupFirst (db.filterMap (fun r =>
      r.group_name.bind (fun g => if gs.contains g then some g else none)))
  | none => dedupFirst (db.filterMap (fun r => r.group_name))

/-- Models `export_groups_to_json`: one `<group>.json` file per available group —
groups with no rows in the items table are never in the iteration. -/
def exportGroupsToJson (db : List XItemRow) (groups : Option (List String)) :
    List (String × List XItemRecord) :=
  (availableGroups db groups).map (fun g =>
    (g ++ ".json",
     (List.insertionSort xTitleLE (db.filter (fun r => r.group_name == some g))).map
       xToRecord))

/-! ## Python `float()` acceptance, modelled from the spec's words -/

/-- Exponent of a float literal: optional sign then digits. -/
def expVal? (l : List Char) : Option Int :=
  match l with
  | '-' :: r =>
    if !r.isEmpty && r.all isDigitC then some (-(digitsToNat r : Int)) else none
  | '+' :: r =>
    if !r.isEmpty && r.all isDigitC then some ((digitsToNat r : Int)) else none
  | r =>
    if !r.isEmpty && r.all isDigitC then some ((digitsToNat r : Int)) else none

/-- Mantissa of a float literal: digits with an optional point somewhere,
at least one digit overall. -/
def mantissaVal? (l : List Char) : Option ℚ :=
  match splitOnceL '.' l with
  | none =>
    if !l.isEmpty && l.all isDigitC then some ((digitsToNat l : ℚ)) else none
  | some (a, b) =>
    if (a.all isDigitC && b.all isDigitC) && !(a.isEmpty && b.isEmpty) then
      some ((digitsToNat a : ℚ) + (digitsToNat b : ℚ) / (10 : ℚ) ^ b.length)
    else none

/-- Split at the first character satisfying `p`. -/
def splitOncePred (p : Char → Bool) : List Char → Option (List Char × List Char)
  | [] => none
  | x :: xs =>
    if p x then some ([], xs)
    else (splitOncePred p xs).map (fun q => (x :: q.1, q.2))

/-- Optional leading sign of a float literal: the negativity flag and the
remaining characters. -/
def signSplit (l : List Char) : Bool × List Char :=
  match l with
  | [] => (false, [])
  | c :: r =>
    if c == '-' then (true, r)
    else if c == '+' then (false, r)
    else (false, c :: r)

/-- Modelled from the spec: the spec's "time must parse as a float" refers
to Python `float()` acceptance of numeric literals — optional surrounding
whitespace, optional sign, a digits-and-point mantissa, and an optional
`e`/`E` exponent — returning the exact denoted rational.  (The `inf`/`nan`
words and underscore digit separators Python also accepts are irrelevant to
recipe time components and not modelled.) -/
def specFloatParse (s : String) : Option ℚ :=
  let sl := signSplit (pyStripL s.data)
  let applySign : ℚ → ℚ := fun v => if sl.1 then -v else v
  match splitOncePred (fun c => c == 'e' || c == 'E') sl.2 with
  | none => (mantissaVal? sl.2).map applySign
  | some (m, e) =>
    match mantissaVal? m, expVal? e with
    | some mv, some ev => some (applySign (mv * (10 : ℚ) ^ ev))
    | _, _ => none

/-! ## Concrete scenario data -/

/-- A small items table for the C1 scenario: `Oxygen` and `Carbon` as raw
materials, `Condensed Carbon` as the owning cooking page. -/
def c1Items : List ItemRow :=
  [{ id := "raw1", title := "Oxygen", summary := none, game_description := none,
     source_info := none, use_info := none, release_history := none,
     additional_info := none, fishing_info := none, progression_info := none,
     typ := "Gas", group_name := "rawMaterials", value := none, infobox := [],
     categories := [] },
   { id := "raw2", title := "Carbon", summary := none, game_description := none,
     source_info := none, use_info := none, release_history := none,
     additional_info := none, fishing_info := none, progression_info := none,
     typ := "Element", group_name := "rawMaterials", value := none, infobox := [],
     categories := [] },
   { id := "cook1", title := "Condensed Carbon", summary := none,
     game_description := none, source_info := none, use_info := none,
     release_history := none, additional_info := none, fishing_info := none,
     progression_info := none, typ := "Element", group_name := "rawMaterials",
     value := none, infobox := [], categories := [] }]

/-- Concrete page for the C4 witness. -/
def c4Page : PageData :=
  { id := "x1", title := "Thing X", summary := none, game_description := none,
    source_info := none, use_info := none, release_history := none,
    additional_info := none, fishing_info := none, progression_info := none,
    infobox := [], categories := [] }

/-- Ordering of exported item records by title (statement vocabulary for
the export-order claim). -/
def recordTitleLE (a b : ItemRecord) : Prop :=
  a.title ≤ b.title

/-- Ordering of exported recipe records by recipe id. -/
def recipeRecordIdLE (a b : RecipeRecord) : Prop :=
  a.id ≤ b.id

/-- A database with one raw-materials item and no fish items, for the C9
counterexample. -/
def c9State : DbState :=
  { items := [{ id := "raw1", title := "Carbon", summary := none,
                game_description := none, source_info := none, use_info := none,
                release_history := none, additional_info := none,
                fishing_info := none, progression_info := none, typ := "Element",
                group_name := "rawMaterials", value := none, infobox := [],
                categories := [] }]
    refinery := ⟨[], []⟩
    cooking := ⟨[], []⟩ }

/-- Per-run group counts matching `c9State`: one raw material, zero of
everything else. -/
def c9Counts : String → Nat :=
  fun g => if g == "rawMaterials" then 1 else 0

/-- One row of the sibling schema for the C9 witness. -/
def c9XRow : XItemRow :=
  { id := "x1", title := "A", description := none, typ := "", infobox := [],
    crafting := [], categories := [], group_name := some "rawMaterials" }

/-- A database with one stored refinery recipe, for the C10 witness. -/
def c10State : DbState :=
  { items := []
    refinery := ⟨[{ recipe_id := "ref_it_1", output_item_id := "it",
                    time_seconds := 1, operation := "Op" }], []⟩
    cooking := ⟨[], []⟩ }

/-- The record `export_refinery_recipes` produces from `c10State`. -/
def c10Record : RecipeRecord :=
  { id := "ref_it_1", inputs := [], output_id := "it", output_name := "it",
    output_quantity := 1, time := 1, operation := "Op" }

/-! ## Helper lemmas -/

theorem startsWithL_append (p t : List Char) : startsWithL (p ++ t) p = true := by
  induction p with
  | nil => cases t <;> rfl
  | cons c cs ih => simp [startsWithL, ih]

theorem filterMap_eq_map_of {α β : Type} (l : List α) (f : α → Option β) (g : α → β)
    (h : ∀ c ∈ l, f c = some (g c)) : l.filterMap f = l.map g := by
  induction l with
  | nil => rfl
  | cons x xs ih =>
    rw [List.filterMap_cons, h x (by simp), List.map_cons,
      ih (fun c hc => h c (by simp [hc]))]

theorem splitOnceL_isSome (ch : Char) (l : List Char) :
    (splitOnceL ch l).isSome = l.contains ch := by
  induction l with
  | nil => rfl
  | cons x xs ih =>
    by_cases hx : (x == ch) = true
    · have h1 : (ch == x) = true := by
        rw [beq_iff_eq] at hx ⊢; exact hx.symm
      simp only [splitOnceL, hx, if_true, Option.isSome_some, List.contains_cons, h1,
        Bool.true_or]
    · have h1 : (ch == x) = false := by
        rw [Bool.eq_false_iff]
        intro e
        exact hx (by rw [beq_iff_eq] at e ⊢; exact e.symm)
      rw [List.contains_cons, h1, Bool.false_or, ← ih]
      simp only [splitOnceL, hx, if_false]
      cases splitOnceL ch xs <;> rfl

theorem splitOnceL_some (ch : Char) (l a b : List Char)
    (h : splitOnceL ch l = some (a, b)) : l = a ++ ch :: b ∧ ch ∉ a := by
  induction l generalizing a b with
  | nil => exact absurd h (by simp [splitOnceL])
  | cons x xs ih =>
    by_cases hx : (x == ch) = true
    · rw [splitOnceL, if_pos hx] at h
      have hax := Option.some_inj.mp h
      have ha : a = [] := (congrArg Prod.fst hax).symm
      have hb : b = xs := (congrArg Prod.snd hax).symm
      subst ha; subst hb
      rw [beq_iff_eq] at hx
      exact ⟨by simp [hx], by simp⟩
    · rw [splitOnceL, if_neg hx] at h
      cases hsp : splitOnceL ch xs with
      | none => rw [hsp] at h; exact absurd h (by simp)
      | some p =>
        rw [hsp] at h
        simp only [Option.map, Option.some_inj] at h
        have ha : a = x :: p.1 := (congrArg Prod.fst h).symm
        have hb : b = p.2 := (congrArg Prod.snd h).symm
        obtain ⟨hl, hna⟩ := ih p.1 p.2 (by rw [hsp])
        subst ha; subst hb
        refine ⟨by rw [List.cons_append, ← hl], ?_⟩
        intro hm
        rcases List.mem_cons.mp hm with h1 | h2
        · exact hx (by rw [beq_iff_eq]; exact h1.symm)
        · exact hna h2

theorem splitOncePred_eq_none {p : Char → Bool} {l : List Char}
    (h : ∀ c ∈ l, p c = false) : splitOncePred p l = none := by
  induction l with
  | nil => rfl
  | cons x xs ih =>
    simp only [splitOncePred, h x (by simp), if_false]
    rw [ih (fun c hc => h c (by simp [hc]))]
    rfl

theorem dropWhile_eq_self_of {p : Char → Bool} {l : List Char}
    (h : ∀ c ∈ l, p c = false) : l.dropWhile p = l := by
  cases l with
  | nil => rfl
  | cons x xs => simp [List.dropWhile_cons, h x (by simp)]

theorem pyStripL_eq_self {l : List Char} (h : ∀ c ∈ l, pyIsSpace c = false) :
    pyStripL l = l := by
  unfold pyStripL dropSpacesL
  rw [dropWhile_eq_self_of h,
    dropWhile_eq_self_of (fun c hc => h c (List.mem_reverse.mp hc)),
    List.reverse_reverse]

theorem lastD_append_two (comps : List String) (o tc : String) :
    lastD (comps ++ [o, tc]) = tc := by
  have h2 : comps ++ [o, tc] = (comps ++ [o]) ++ [tc] := by simp
  rw [lastD, h2, List.getLastD_concat]

theorem secondLastD_append_two (comps : List String) (o tc : String) :
    secondLastD (comps ++ [o, tc]) = o := by
  have h2 : comps ++ [o, tc] = (comps ++ [o]) ++ [tc] := by simp
  rw [secondLastD, h2, List.dropLast_concat, List.getLastD_concat]

theorem take_append_two (comps : List String) (o tc : String) :
    (comps ++ [o, tc]).take ((comps ++ [o, tc]).length - 2) = comps := by
  have hl : (comps ++ [o, tc]).length = comps.length + 2 := by simp
  rw [hl, Nat.add_sub_cancel]
  exact List.take_left comps [o, tc]

theorem length_ge_three (comps : List String) (o tc : String) (h : comps ≠ []) :
    ¬ (comps ++ [o, tc]).length < 3 := by
  have h1 : 1 ≤ comps.length := List.length_pos.mpr h
  have hl : (comps ++ [o, tc]).length = comps.length + 2 := by simp
  omega

theorem splitOnceStr_of_contains (ch : Char) (s : String)
    (h : containsChar ch s = true) :
    splitOnceStr ch s = some (beforeFirst ch s, afterFirst ch s) := by
  have hs : (splitOnceL ch s.data).isSome = true := by
    rw [splitOnceL_isSome]; exact h
  obtain ⟨⟨a, b⟩, hp⟩ := Option.isSome_iff_exists.mp hs
  unfold beforeFirst afterFirst splitOnceStr
  rw [hp]
  rfl

theorem mem_of_mem_dedupFirstAux (seen : List String) :
    ∀ (l : List String) (x : String), x ∈ dedupFirstAux seen l → x ∈ l := by
  intro l
  induction l generalizing seen with
  | nil => intro x hx; exact absurd hx (by simp [dedupFirstAux])
  | cons y ys ih =>
    intro x hx
    by_cases hy : seen.contains y
    · simp only [dedupFirstAux, hy, if_true] at hx
      exact List.mem_cons_of_mem y (ih seen x hx)
    · simp only [dedupFirstAux, hy, if_false] at hx
      rcases List.mem_cons.mp hx with h1 | h2
      · exact h1 ▸ List.mem_cons_self x ys
      · exact List.mem_cons_of_mem y (ih (y :: seen) x h2)

theorem mem_of_mem_dedupFirst (l : List String) (x : String)
    (h : x ∈ dedupFirst l) : x ∈ l :=
  mem_of_mem_dedupFirstAux [] l x h

theorem refIngredientOf_eq (items : List ItemRow) (rid c : String)
    (hc : containsChar ',' c = true) :
    refIngredientOf items rid c =
      some { recipe_id := rid
             ingredient_item_id := resolveItemNameToId items (pyStrip (beforeFirst ',' c))
             quantity :=
               if pyIsDigit (afterFirst ',' c) then digitsVal (afterFirst ',' c) else 1 } := by
  unfold refIngredientOf
  rw [splitOnceStr_of_contains ',' c hc]
  simp [hc]

theorem cookIngredientOf_eq (items : List ItemRow) (rid c : String)
    (hc : containsChar ',' c = true)
    (hres : resolveItemNameToId items (pyStrip (beforeFirst ',' c)) ≠ "") :
    cookIngredientOf items rid c =
      some { recipe_id := rid
             ingredient_item_id := resolveItemNameToId items (pyStrip (beforeFirst ',' c))
             quantity :=
               if pyIsDigit (pyStrip (afterFirst ',' c)) then
                 digitsVal (pyStrip (afterFirst ',' c))
               else 1 } := by
  unfold cookIngredientOf
  rw [splitOnceStr_of_contains ',' c hc]
  simp [hc, hres]

theorem refineryRowOf_eq (itemId : String) (i : Nat) (line : String)
    (comps : List String) (o tc tStr opStr : String)
    (hsplit : pySplit ';' line = comps ++ [o, tc])
    (htime : splitOnceStr '%' tc = some (tStr, opStr)) :
    refineryRowOf itemId i line =
      { recipe_id := refRecipeId itemId i
        output_item_id := itemId
        time_seconds := timeSecondsOf 1 tStr
        operation := pyStrip opStr } := by
  simp only [refineryRowOf]
  rw [hsplit, lastD_append_two]
  unfold timeOpSplit
  rw [htime]

theorem cookingRowOf_eq (itemId : String) (i : Nat) (line : String)
    (comps : List String) (o tc tStr opStr : String)
    (hsplit : pySplit ';' line = comps ++ [o, tc])
    (htime : splitOnceStr '%' tc = some (tStr, opStr)) :
    cookingRowOf itemId i line =
      { recipe_id := cookRecipeId itemId i
        output_item_id := itemId
        time_seconds := timeSecondsOf (5/2) tStr
        operation := pyStrip opStr } := by
  simp only [cookingRowOf]
  rw [hsplit, lastD_append_two]
  unfold timeOpSplit
  rw [htime]

theorem refineryIngRowsOf_eq (items : List ItemRow) (itemId : String) (i : Nat)
    (line : String) (comps : List String) (o tc : String)
    (hsplit : pySplit ';' line = comps ++ [o, tc]) :
    refineryIngRowsOf items itemId i line =
      comps.filterMap (refIngredientOf items (refRecipeId itemId i)) := by
  simp only [refineryIngRowsOf]
  rw [hsplit, take_append_two]

theorem cookingIngRowsOf_eq (items : List ItemRow) (itemId : String) (i : Nat)
    (line : String) (comps : List String) (o tc : String)
    (hsplit : pySplit ';' line = comps ++ [o, tc]) :
    cookingIngRowsOf items itemId i line =
      comps.filterMap (cookIngredientOf items (cookRecipeId itemId i)) := by
  simp only [cookingIngRowsOf]
  rw [hsplit, take_append_two]

theorem refineryLineStep_eq (items : List ItemRow) (itemId : String) (i : Nat)
    (line : String) (st : RecipeDb) (h : ¬ (pySplit ';' line).length < 3) :
    refineryLineStep items itemId i line st =
      { recipes := insertOrReplace st.recipes (refineryRowOf itemId i line)
        ingredients := st.ingredients ++ refineryIngRowsOf items itemId i line } := by
  simp only [refineryLineStep]
  rw [if_neg h]

theorem cookingLineStep_eq (items : List ItemRow) (itemId : String) (i : Nat)
    (line : String) (st : RecipeDb) (h : ¬ (pySplit ';' line).length < 3) :
    cookingLineStep items itemId i line st =
      { recipes := insertOrReplace st.recipes (cookingRowOf itemId i line)
        ingredients := st.ingredients ++ cookingIngRowsOf items itemId i line } := by
  simp only [cookingLineStep]
  rw [if_neg h]

theorem pyIsSpace_false_of_digit_or_dot (c : Char)
    (h : isDigitC c = true ∨ c = '.') : pyIsSpace c = false := by
  rcases h with h | h
  · by_contra hs
    rw [Bool.not_eq_false] at hs
    unfold pyIsSpace at hs
    simp only [Bool.or_eq_true, beq_iff_eq] at hs
    rcases hs with ((((h1 | h1) | h1) | h1) | h1) | h1 <;>
      (subst h1; exact absurd h (by decide))
  · subst h; rfl

theorem not_e_of_digit_or_dot (c : Char) (h : isDigitC c = true ∨ c = '.') :
    (c == 'e' || c == 'E') = false := by
  rcases h with h | h
  · by_contra hs
    rw [Bool.not_eq_false] at hs
    simp only [Bool.or_eq_true, beq_iff_eq] at hs
    rcases hs with h1 | h1 <;> (subst h1; exact absurd h (by decide))
  · subst h; rfl

theorem not_sign_of_digit_or_dot (c : Char) (h : isDigitC c = true ∨ c = '.') :
    (c == '-') = false ∧ (c == '+') = false := by
  constructor <;> (rw [beq_eq_false_iff_ne]; intro he; subst he) <;>
    exact absurd h (by decide)

/-- A time component passing the save functions' float guard with at most
one point parses under `specFloatParse` to exactly its decimal value. -/
theorem floatGuard_specFloatParse (s : String)
    (hg : floatGuard s = true) (hd : dotCount s ≤ 1) :
    specFloatParse s = some (decimalValStr s) := by
  unfold floatGuard at hg
  rw [Bool.and_eq_true] at hg
  obtain ⟨hne, hall⟩ := hg
  have hne' : List.filter (fun c => c != '.') s.data ≠ [] := by
    intro he
    rw [he] at hne
    simp at hne
  rw [List.all_eq_true] at hall
  have hmem : ∀ c ∈ s.data, isDigitC c = true ∨ c = '.' := by
    intro c hc
    by_cases hdot : c = '.'
    · exact Or.inr hdot
    · refine Or.inl (hall c ?_)
      rw [List.mem_filter]
      exact ⟨hc, by rw [bne_iff_ne]; exact hdot⟩
  have hlne : s.data ≠ [] := by
    intro he
    apply hne'
    rw [he]
    rfl
  have hstrip : pyStripL s.data = s.data :=
    pyStripL_eq_self (fun c hc => pyIsSpace_false_of_digit_or_dot c (hmem c hc))
  have hsign : signSplit s.data = (false, s.data) := by
    cases hl : s.data with
    | nil => exact absurd hl hlne
    | cons c rest =>
      have hc := hmem c (by rw [hl]; exact List.mem_cons_self c rest)
      obtain ⟨hm, hp⟩ := not_sign_of_digit_or_dot c hc
      unfold signSplit
      simp [hm, hp]
  have hexp : splitOncePred (fun c => c == 'e' || c == 'E') s.data = none :=
    splitOncePred_eq_none (fun c hc => not_e_of_digit_or_dot c (hmem c hc))
  have hmant : mantissaVal? s.data = some (decimalVal s.data) := by
    unfold mantissaVal? decimalVal
    cases hsp : splitOnceL '.' s.data with
    | none =>
      have hnodot : ('.' : Char) ∉ s.data := by
        have hiso := splitOnceL_isSome '.' s.data
        rw [hsp] at hiso
        have hcf : s.data.contains '.' = false := hiso.symm
        simp at hcf
        exact hcf
      have halldig : s.data.all isDigitC = true := by
        rw [List.all_eq_true]
        intro c hc
        rcases hmem c hc with h | h
        · exact h
        · exact absurd (h ▸ hc) hnodot
      have hie : s.data.isEmpty = false := by
        cases hval : s.data.isEmpty
        · rfl
        · exact absurd (List.isEmpty_iff.mp hval) hlne
      rw [hie, halldig]
      simp
    | some p =>
      obtain ⟨a, b⟩ := p
      obtain ⟨hl, hna⟩ := splitOnceL_some '.' s.data a b (by rw [hsp])
      have hnb : ('.' : Char) ∉ b := by
        have hcount : s.data.count '.' ≤ 1 := hd
        rw [hl, List.count_append] at hcount
        have h1 : (('.' : Char) :: b).count '.' = b.count '.' + 1 :=
          List.count_cons_self '.' b
        rw [h1] at hcount
        have hz : b.count '.' = 0 := by omega
        exact List.count_eq_zero.mp hz
      have hadig : a.all isDigitC = true := by
        rw [List.all_eq_true]
        intro c hc
        rcases hmem c (by rw [hl]; exact List.mem_append_left _ hc) with h | h
        · exact h
        · exact absurd (h ▸ hc) hna
      have hbdig : b.all isDigitC = true := by
        rw [List.all_eq_true]
        intro c hc
        have hcm : c ∈ s.data := by
          rw [hl]
          exact List.mem_append_right _ (List.mem_cons_of_mem _ hc)
        rcases hmem c hcm with h | h
        · exact h
        · exact absurd (h ▸ hc) hnb
      have hnempty : (a.isEmpty && b.isEmpty) = false := by
        cases hval : (a.isEmpty && b.isEmpty)
        · rfl
        · exfalso
          rw [Bool.and_eq_true, List.isEmpty_iff, List.isEmpty_iff] at hval
          apply hne'
          have hdot : s.data = ['.'] := by
            rw [hl, hval.1, hval.2]
            rfl
          rw [hdot]
          rfl
      simp [hadig, hbdig, hnempty]
  simp only [specFloatParse]
  rw [hstrip, hsign]
  simp only
  rw [hexp]
  simp [hmant, decimalValStr]

theorem refIngredientOf_recipeId (items : List ItemRow) (rid c : String)
    (r : IngredientRow) (h : refIngredientOf items rid c = some r) :
    r.recipe_id = rid := by
  unfold refIngredientOf at h
  split at h
  · split at h
    · rw [← Option.some_inj.mp h]
    · exact absurd h (by simp)
  · exact absurd h (by simp)

theorem cookIngredientOf_recipeId (items : List ItemRow) (rid c : String)
    (r : IngredientRow) (h : cookIngredientOf items rid c = some r) :
    r.recipe_id = rid := by
  simp only [cookIngredientOf] at h
  split at h
  · split at h
    · split at h
      · rw [← Option.some_inj.mp h]
      · exact absurd h (by simp)
    · exact absurd h (by simp)
  · exact absurd h (by simp)

theorem refineryIngRowsOf_recipeId (items : List ItemRow) (itemId : String)
    (i : Nat) (line : String) :
    ∀ r ∈ refineryIngRowsOf items itemId i line,
      r.recipe_id = refRecipeId itemId i := by
  intro r hr
  simp only [refineryIngRowsOf] at hr
  obtain ⟨c, _, hc⟩ := List.mem_filterMap.mp hr
  exact refIngredientOf_recipeId items _ c r hc

theorem cookingIngRowsOf_recipeId (items : List ItemRow) (itemId : String)
    (i : Nat) (line : String) :
    ∀ r ∈ cookingIngRowsOf items itemId i line,
      r.recipe_id = cookRecipeId itemId i := by
  intro r hr
  simp only [cookingIngRowsOf] at hr
  obtain ⟨c, _, hc⟩ := List.mem_filterMap.mp hr
  exact cookIngredientOf_recipeId items _ c r hc

/-! ## Claim theorems -/

/-- C1: a valid semicolon-delimited recipe line with at least three
components is decomposed so that every component except the last two
becomes, in order, an ingredient (resolved name, quantity) row; the
second-to-last component is parsed as the output quantity; the last
component splits at the first `%` into a duration and a stripped operation
label; and the recipe's output is the owning page's item id. -/
theorem C1_recipe_line_decomposition
    (items : List ItemRow) (itemId : String) (i : Nat) (st : RecipeDb)
    (line : String) (comps : List String) (outComp timeComp tStr opStr : String)
    (hsplit : pySplit ';' line = comps ++ [outComp, timeComp])
    (hne : comps ≠ [])
    (hcomma : ∀ c ∈ comps, containsChar ',' c = true)
    (hqty : ∀ c ∈ comps, pyIsDigit (afterFirst ',' c) = true)
    (hqtys : ∀ c ∈ comps, pyStrip (afterFirst ',' c) = afterFirst ',' c)
    (hres : ∀ c ∈ comps,
      resolveItemNameToId items (pyStrip (beforeFirst ',' c)) ≠ "")
    (hout : pyIsDigit outComp = true)
    (htime : splitOnceStr '%' timeComp = some (tStr, opStr)) :
    refineryLineStep items itemId i line st =
      { recipes := insertOrReplace st.recipes
          { recipe_id := refRecipeId itemId i
            output_item_id := itemId
            time_seconds := timeSecondsOf 1 tStr
            operation := pyStrip opStr }
        ingredients := st.ingredients ++ comps.map (fun c =>
          { recipe_id := refRecipeId itemId i
            ingredient_item_id := resolveItemNameToId items (pyStrip (beforeFirst ',' c))
            quantity := digitsVal (afterFirst ',' c) }) }
    ∧ cookingLineStep items itemId i line st =
      { recipes := insertOrReplace st.recipes
          { recipe_id := cookRecipeId itemId i
            output_item_id := itemId
            time_seconds := timeSecondsOf (5/2) tStr
            operation := pyStrip opStr }
        ingredients := st.ingredients ++ comps.map (fun c =>
          { recipe_id := cookRecipeId itemId i
            ingredient_item_id := resolveItemNameToId items (pyStrip (beforeFirst ',' c))
            quantity := digitsVal (afterFirst ',' c) }) }
    ∧ refineryOutputQty line = digitsVal outComp
    ∧ cookingOutputQty line = digitsVal outComp := by
  have hguard : ¬ (pySplit ';' line).length < 3 := by
    rw [hsplit]
    exact length_ge_three comps outComp timeComp hne
  have houtq : refineryOutputQty line = digitsVal outComp := by
    simp only [refineryOutputQty]
    rw [hsplit, secondLastD_append_two, if_pos hout]
  refine ⟨?_, ?_, houtq, houtq⟩
  · rw [refineryLineStep_eq items itemId i line st hguard,
      refineryRowOf_eq itemId i line comps outComp timeComp tStr opStr hsplit htime,
      refineryIngRowsOf_eq items itemId i line comps outComp timeComp hsplit,
      filterMap_eq_map_of comps (refIngredientOf items (refRecipeId itemId i))
        (fun c =>
          { recipe_id := refRecipeId itemId i
            ingredient_item_id := resolveItemNameToId items (pyStrip (beforeFirst ',' c))
            quantity := digitsVal (afterFirst ',' c) })
        (fun c hc => by
          rw [refIngredientOf_eq items _ c (hcomma c hc), hqty c hc]
          simp)]
  · rw [cookingLineStep_eq items itemId i line st hguard,
      cookingRowOf_eq itemId i line comps outComp timeComp tStr opStr hsplit htime,
      cookingIngRowsOf_eq items itemId i line comps outComp timeComp hsplit,
      filterMap_eq_map_of comps (cookIngredientOf items (cookRecipeId itemId i))
        (fun c =>
          { recipe_id := cookRecipeId itemId i
            ingredient_item_id := resolveItemNameToId items (pyStrip (beforeFirst ',' c))
            quantity := digitsVal (afterFirst ',' c) })
        (fun c hc => by
          rw [cookIngredientOf_eq items _ c (hcomma c hc) (hres c hc),
            hqtys c hc, hqty c hc]
          simp)]

/-- Witness for C1 on the spec's scenario: line
`"Oxygen,2;Carbon,1;1;0.18%Condense Carbon"` for owning page
`"Condensed Carbon"` (stored as `cook1`), with `Oxygen` and `Carbon`
resolvable: inputs `[(raw1, 2), (raw2, 1)]` in order, output the owning
item, duration `0.18`, operation `"Condense Carbon"`. -/
theorem C1_witness :
    refineryLineStep c1Items "cook1" 0 "Oxygen,2;Carbon,1;1;0.18%Condense Carbon" ⟨[], []⟩ =
      { recipes := insertOrReplace []
          { recipe_id := refRecipeId "cook1" 0
            output_item_id := "cook1"
            time_seconds := timeSecondsOf 1 "0.18"
            operation := pyStrip "Condense Carbon" }
        ingredients := [] ++ ["Oxygen,2", "Carbon,1"].map (fun c =>
          { recipe_id := refRecipeId "cook1" 0
            ingredient_item_id := resolveItemNameToId c1Items (pyStrip (beforeFirst ',' c))
            quantity := digitsVal (afterFirst ',' c) }) }
    ∧ cookingLineStep c1Items "cook1" 0 "Oxygen,2;Carbon,1;1;0.18%Condense Carbon" ⟨[], []⟩ =
      { recipes := insertOrReplace []
          { recipe_id := cookRecipeId "cook1" 0
            output_item_id := "cook1"
            time_seconds := timeSecondsOf (5/2) "0.18"
            operation := pyStrip "Condense Carbon" }
        ingredients := [] ++ ["Oxygen,2", "Carbon,1"].map (fun c =>
          { recipe_id := cookRecipeId "cook1" 0
            ingredient_item_id := resolveItemNameToId c1Items (pyStrip (beforeFirst ',' c))
            quantity := digitsVal (afterFirst ',' c) }) }
    ∧ refineryOutputQty "Oxygen,2;Carbon,1;1;0.18%Condense Carbon" = digitsVal "1"
    ∧ cookingOutputQty "Oxygen,2;Carbon,1;1;0.18%Condense Carbon" = digitsVal "1" :=
  C1_recipe_line_decomposition c1Items "cook1" 0 ⟨[], []⟩
    "Oxygen,2;Carbon,1;1;0.18%Condense Carbon"
    ["Oxygen,2", "Carbon,1"] "1" "0.18%Condense Carbon" "0.18" "Condense Carbon"
    (by decide) (by decide) (by decide) (by decide) (by decide) (by decide)
    (by decide) (by decide)

/-- Sanity instance for C1's scenario values: the witness duration is
exactly 0.18 seconds and the resolved input ids are `raw1` and `raw2`. -/
theorem C1_scenario_values :
    timeSecondsOf 1 "0.18" = 9/50
    ∧ resolveItemNameToId c1Items "Oxygen" = "raw1"
    ∧ resolveItemNameToId c1Items "Carbon" = "raw2"
    ∧ pyStrip "Condense Carbon" = "Condense Carbon" := by
  refine ⟨?_, by decide, by decide, by decide⟩
  have h : timeSecondsOf 1 "0.18" = ((0 : ℕ) : ℚ) + ((18 : ℕ) : ℚ) / (10 : ℚ) ^ (2 : ℕ) :=
    rfl
  rw [h]
  norm_num

/-- C4 counterexample: writing the same refinery recipe twice (same
`recipe_id`) leaves two copies of its ingredient row in the store — the
stored ingredient list for the id is not the newly written record's
ingredient list, so the write is not a full replacement. -/
theorem C4_counterexample :
    ((saveRefineryRecipes
        (saveRefineryRecipes ⟨[], ⟨[], []⟩, ⟨[], []⟩⟩ "it" ["Carbon,2;1;1.5%Smelt"])
        "it" ["Carbon,2;1;1.5%Smelt"]).refinery.ingredients.filter
        (fun r => r.recipe_id == "ref_it_1"))
      = [{ recipe_id := "ref_it_1", ingredient_item_id := "missing_carbon", quantity := 2 },
         { recipe_id := "ref_it_1", ingredient_item_id := "missing_carbon", quantity := 2 }]
    ∧ refineryIngRowsOf [] "it" 0 "Carbon,2;1;1.5%Smelt"
      = [{ recipe_id := "ref_it_1", ingredient_item_id := "missing_carbon", quantity := 2 }]
    ∧ ([{ recipe_id := "ref_it_1", ingredient_item_id := "missing_carbon", quantity := 2 },
        { recipe_id := "ref_it_1", ingredient_item_id := "missing_carbon", quantity := 2 }]
         : List IngredientRow)
      ≠ [{ recipe_id := "ref_it_1", ingredient_item_id := "missing_carbon", quantity := 2 }] :=
  ⟨rfl, rfl, by decide⟩

/-- C4 (amended): writing an item with an existing id fully replaces the
stored item row and leaves other ids untouched; re-writing a recipe with an
existing recipe id replaces the recipe row (output, duration, operation)
but appends the new ingredient rows after any previously stored ones for
that id instead of replacing them. -/
theorem C4_amended_upsert_semantics :
    (∀ (st : DbState) (d : PageData) (group : String),
      ((saveItemToDb st d group).items.filter (fun r => r.id == d.id))
        = [writeRow d group]
      ∧ (∀ j : String, j ≠ d.id →
          ((saveItemToDb st d group).items.filter (fun r => r.id == j))
            = st.items.filter (fun r => r.id == j)))
    ∧ (∀ (items : List ItemRow) (itemId : String) (i : Nat) (line : String)
        (st : RecipeDb), ¬ (pySplit ';' line).length < 3 →
        ((refineryLineStep items itemId i line st).recipes.filter
            (fun r => r.recipe_id == refRecipeId itemId i))
          = [refineryRowOf itemId i line]
        ∧ ((refineryLineStep items itemId i line st).ingredients.filter
            (fun r => r.recipe_id == refRecipeId itemId i))
          = st.ingredients.filter (fun r => r.recipe_id == refRecipeId itemId i)
              ++ refineryIngRowsOf items itemId i line)
    ∧ (∀ (items : List ItemRow) (itemId : String) (i : Nat) (line : String)
        (st : RecipeDb), ¬ (pySplit ';' line).length < 3 →
        ((cookingLineStep items itemId i line st).recipes.filter
            (fun r => r.recipe_id == cookRecipeId itemId i))
          = [cookingRowOf itemId i line]
        ∧ ((cookingLineStep items itemId i line st).ingredients.filter
            (fun r => r.recipe_id == cookRecipeId itemId i))
          = st.ingredients.filter (fun r => r.recipe_id == cookRecipeId itemId i)
              ++ cookingIngRowsOf items itemId i line) := by
  refine ⟨?_, ?_, ?_⟩
  · intro st d group
    constructor
    · show ((st.items.filter (fun r => r.id != d.id) ++ [writeRow d group]).filter
          (fun r => r.id == d.id)) = _
      rw [List.filter_append, List.filter_filter]
      have hw : (writeRow d group).id = d.id := rfl
      have h0 : st.items.filter
          (fun a => (a.id == d.id) && (a.id != d.id)) = [] := by
        rw [List.filter_eq_nil_iff]
        intro a _
        simp [bne]
      rw [h0]
      simp [hw]
    · intro j hj
      show ((st.items.filter (fun r => r.id != d.id) ++ [writeRow d group]).filter
          (fun r => r.id == j)) = _
      rw [List.filter_append, List.filter_filter]
      have hw : ((writeRow d group).id == j) = false := by
        have : (writeRow d group).id = d.id := rfl
        rw [this, beq_eq_false_iff_ne]
        exact fun e => hj e.symm
      have h1 : st.items.filter (fun a => (a.id == j) && (a.id != d.id))
          = st.items.filter (fun a => a.id == j) := by
        apply List.filter_congr
        intro a _
        by_cases ha : (a.id == j) = true
        · have hne : (a.id != d.id) = true := by
            rw [beq_iff_eq] at ha
            rw [bne_iff_ne, ha]
            exact hj
          simp [ha, hne]
        · simp [Bool.eq_false_iff.mpr ha]
      rw [h1]
      simp [hw]
  · intro items itemId i line st h
    rw [refineryLineStep_eq items itemId i line st h]
    have hrid : (refineryRowOf itemId i line).recipe_id = refRecipeId itemId i := rfl
    constructor
    · show ((insertOrReplace st.recipes (refineryRowOf itemId i line)).filter
          (fun r => r.recipe_id == refRecipeId itemId i)) = _
      unfold insertOrReplace
      rw [List.filter_append, List.filter_filter, hrid]
      have h0 : st.recipes.filter
          (fun a => (a.recipe_id == refRecipeId itemId i)
            && (a.recipe_id != refRecipeId itemId i)) = [] := by
        rw [List.filter_eq_nil_iff]
        intro a _
        simp [bne]
      rw [h0]
      simp [hrid]
    · show ((st.ingredients ++ refineryIngRowsOf items itemId i line).filter
          (fun r => r.recipe_id == refRecipeId itemId i)) = _
      rw [List.filter_append]
      congr 1
      rw [List.filter_eq_self]
      intro a ha
      simp [refineryIngRowsOf_recipeId items itemId i line a ha]
  · intro items itemId i line st h
    rw [cookingLineStep_eq items itemId i line st h]
    have hrid : (cookingRowOf itemId i line).recipe_id = cookRecipeId itemId i := rfl
    constructor
    · show ((insertOrReplace st.recipes (cookingRowOf itemId i line)).filter
          (fun r => r.recipe_id == cookRecipeId itemId i)) = _
      unfold insertOrReplace
      rw [List.filter_append, List.filter_filter, hrid]
      have h0 : st.recipes.filter
          (fun a => (a.recipe_id == cookRecipeId itemId i)
            && (a.recipe_id != cookRecipeId itemId i)) = [] := by
        rw [List.filter_eq_nil_iff]
        intro a _
        simp [bne]
      rw [h0]
      simp [hrid]
    · show ((st.ingredients ++ cookingIngRowsOf items itemId i line).filter
          (fun r => r.recipe_id == cookRecipeId itemId i)) = _
      rw [List.filter_append]
      congr 1
      rw [List.filter_eq_self]
      intro a ha
      simp [cookingIngRowsOf_recipeId items itemId i line a ha]

/-- C6 counterexample: the time component `"1e5"` parses as a float (to
100000.0), yet the stored refinery duration for the line
`"Carbon,1;1;1e5%Boost"` is the default 1.0, not the parsed value. -/
theorem C6_counterexample :
    specFloatParse "1e5" = some 100000
    ∧ (refineryLineStep [] "it" 0 "Carbon,1;1;1e5%Boost" ⟨[], []⟩).recipes
      = [{ recipe_id := "ref_it_1", output_item_id := "it", time_seconds := 1,
           operation := "Boost" }]
    ∧ (1 : ℚ) ≠ 100000 := by
  refine ⟨?_, rfl, by norm_num⟩
  have h : specFloatParse "1e5"
      = some (((1 : ℕ) : ℚ) * (10 : ℚ) ^ ((5 : ℕ) : ℤ)) := rfl
  rw [h]
  norm_num

/-- C6 (amended): the stored duration is the parsed decimal value exactly
when the time component is a nonempty digits-and-points string (Python
`isdigit` after removing points) with at most one point; any other time
component — including strings `float()` accepts, such as exponent or
signed notation — yields the kind-specific default: 1.0 s for refining
lines and 2.5 s for cooking lines. -/
theorem C6_amended_time_default :
    (∀ (itemId : String) (i : Nat) (line : String) (comps : List String)
        (outComp timeComp : String),
      pySplit ';' line = comps ++ [outComp, timeComp] →
      (refineryRowOf itemId i line).time_seconds
          = timeSecondsOf 1 (beforeFirst '%' timeComp)
        ∧ (cookingRowOf itemId i line).time_seconds
          = timeSecondsOf (5/2) (beforeFirst '%' timeComp))
    ∧ (∀ (d : ℚ) (s : String), specFloatParse s = none → timeSecondsOf d s = d)
    ∧ (∀ s : String, floatGuard s = true → dotCount s ≤ 1 →
        specFloatParse s = some (decimalValStr s)
        ∧ ∀ d : ℚ, timeSecondsOf d s = decimalValStr s) := by
  refine ⟨?_, ?_, ?_⟩
  · intro itemId i line comps outComp timeComp hsplit
    have hb : ∀ dfltOp, (timeOpSplit dfltOp timeComp).1 = beforeFirst '%' timeComp := by
      intro dfltOp
      unfold timeOpSplit beforeFirst
      cases hsp : splitOnceStr '%' timeComp with
      | none => rfl
      | some q =>
        obtain ⟨t, op⟩ := q
        rfl
    constructor
    · simp only [refineryRowOf]
      rw [hsplit, lastD_append_two, hb]
    · simp only [cookingRowOf]
      rw [hsplit, lastD_append_two, hb]
  · intro d s h
    unfold timeSecondsOf
    cases hg : (floatGuard s && decide (dotCount s ≤ 1)) with
    | false => rw [if_neg (by simp [hg])]
    | true =>
      exfalso
      rw [Bool.and_eq_true] at hg
      have hp := floatGuard_specFloatParse s hg.1 (of_decide_eq_true hg.2)
      rw [h] at hp
      exact absurd hp (by simp)
  · intro s hg hd
    refine ⟨floatGuard_specFloatParse s hg hd, ?_⟩
    intro d
    unfold timeSecondsOf
    rw [if_pos (by simp [hg, hd])]

/-- Witness for the amended C6 at concrete lines and time components. -/
theorem C6_amended_witness :
    (refineryRowOf "it" 0 "Carbon,1;1;2.5%Boost").time_seconds
      = timeSecondsOf 1 (beforeFirst '%' "2.5%Boost")
    ∧ (cookingRowOf "it" 0 "Carbon,1;1;2.5%Boost").time_seconds
      = timeSecondsOf (5/2) (beforeFirst '%' "2.5%Boost")
    ∧ timeSecondsOf 7 "abc" = 7
    ∧ specFloatParse "2.5" = some (decimalValStr "2.5")
    ∧ timeSecondsOf 7 "2.5" = decimalValStr "2.5" := by
  have h := C6_amended_time_default
  have h1 := h.1 "it" 0 "Carbon,1;1;2.5%Boost" ["Carbon,1"] "1" "2.5%Boost" (by decide)
  have h3 := h.2.2 "2.5" (by decide) (by decide)
  exact ⟨h1.1, h1.2, h.2.1 7 "abc" rfl, h3.1, h3.2 7⟩

/-- C7 counterexample: in `save_refinery_recipes`, the ingredient
`"Oxygen,abc"`, whose quantity fails to parse as a non-negative integer, is
not skipped — it is persisted with the default quantity 1 alongside its
sibling ingredient. -/
theorem C7_counterexample :
    pyIsDigit "abc" = false
    ∧ pyInt? "abc" = none
    ∧ (refineryLineStep [] "it" 0 "Oxygen,abc;Carbon,2;1;0.18%Condense Carbon"
        ⟨[], []⟩).ingredients
      = [{ recipe_id := "ref_it_1", ingredient_item_id := "missing_oxygen", quantity := 1 },
         { recipe_id := "ref_it_1", ingredient_item_id := "missing_carbon", quantity := 2 }]
    ∧ ({ recipe_id := "ref_it_1", ingredient_item_id := "missing_oxygen", quantity := 1 }
         : IngredientRow)
      ∈ (refineryLineStep [] "it" 0 "Oxygen,abc;Carbon,2;1;0.18%Condense Carbon"
          ⟨[], []⟩).ingredients :=
  ⟨rfl, rfl, rfl, by decide⟩

/-- C7 (amended): in `save_refinery_recipes` an ingredient component
containing a comma whose quantity is not a digit string is kept with
default quantity 1 (not skipped) while the whole line is still persisted;
in the extractor's `parse_poc_refine_line` an ingredient whose quantity
fails Python `int()` parsing is dropped while the rest of the line's
components are still parsed (inputs are exactly the per-component parses
in order). -/
theorem C7_amended_quantity_handling :
    (∀ (items : List ItemRow) (itemId : String) (i : Nat) (st : RecipeDb)
        (line : String) (comps : List String) (outComp timeComp c : String),
      pySplit ';' line = comps ++ [outComp, timeComp] → c ∈ comps →
      containsChar ',' c = true → pyIsDigit (afterFirst ',' c) = false →
      ({ recipe_id := refRecipeId itemId i
         ingredient_item_id := resolveItemNameToId items (pyStrip (beforeFirst ',' c))
         quantity := 1 } : IngredientRow)
        ∈ (refineryLineStep items itemId i line st).ingredients
      ∧ refineryRowOf itemId i line ∈ (refineryLineStep items itemId i line st).recipes)
    ∧ (∀ (cache : List (String × String)) (c n q : String),
        rsplitOnceStr ',' c = some (n, q) → pyInt? (pyStrip q) = none →
        pocInputItem cache c = none)
    ∧ (∀ (cache : List (String × String)) (line : String) (comps : List String)
        (outComp timeComp : String) (r : PocRecipe),
        pySplit ';' line = comps ++ [outComp, timeComp] →
        parsePocRefineLine cache line = some r →
        r.inputs = comps.filterMap (pocInputItem cache)) := by
  refine ⟨?_, ?_, ?_⟩
  · intro items itemId i st line comps outComp timeComp c hsplit hc hcomma hqty
    have hne : comps ≠ [] := by
      intro he
      rw [he] at hc
      exact absurd hc (List.not_mem_nil c)
    have hguard : ¬ (pySplit ';' line).length < 3 := by
      rw [hsplit]
      exact length_ge_three comps outComp timeComp hne
    rw [refineryLineStep_eq items itemId i line st hguard]
    constructor
    · apply List.mem_append_right
      rw [refineryIngRowsOf_eq items itemId i line comps outComp timeComp hsplit]
      apply List.mem_filterMap.mpr
      refine ⟨c, hc, ?_⟩
      rw [refIngredientOf_eq items _ c hcomma, hqty]
      simp
    · unfold insertOrReplace
      exact List.mem_append_right _ (List.mem_singleton.mpr rfl)
  · intro cache c n q hr hint
    have hcontains : containsChar ',' c = true := by
      unfold rsplitOnceStr at hr
      cases hsp : splitOnceL ',' c.data.reverse with
      | none => rw [hsp] at hr; exact absurd hr (by simp)
      | some p =>
        have hiso : (splitOnceL ',' c.data.reverse).isSome = true := by
          rw [hsp]; rfl
        rw [splitOnceL_isSome] at hiso
        unfold containsChar
        simp at hiso ⊢
        exact hiso
    unfold pocInputItem
    rw [if_pos hcontains, hr]
    simp [hint]
  · intro cache line comps outComp timeComp r hsplit hp
    simp only [parsePocRefineLine] at hp
    split at hp
    · exact absurd hp (by simp)
    · split at hp
      · exact absurd hp (by simp)
      · split at hp
        · split at hp
          · have hr := Option.some_inj.mp hp
            rw [← hr]
            show (((pySplit ';' line).take ((pySplit ';' line).length - 2)).filterMap
              (pocInputItem cache)) = comps.filterMap (pocInputItem cache)
            rw [hsplit, take_append_two]
          · exact absurd hp (by simp)
        · exact absurd hp (by simp)

/-- Witness for the amended C7: the kept-with-default-1 ingredient and the
extractor's per-ingredient skip at concrete inputs. -/
theorem C7_amended_witness :
    ({ recipe_id := refRecipeId "it" 0
       ingredient_item_id :=
         resolveItemNameToId [] (pyStrip (beforeFirst ',' "Oxygen,abc"))
       quantity := 1 } : IngredientRow)
      ∈ (refineryLineStep [] "it" 0 "Oxygen,abc;Carbon,2;1;0.18%Condense Carbon"
          ⟨[], []⟩).ingredients
    ∧ refineryRowOf "it" 0 "Oxygen,abc;Carbon,2;1;0.18%Condense Carbon"
      ∈ (refineryLineStep [] "it" 0 "Oxygen,abc;Carbon,2;1;0.18%Condense Carbon"
          ⟨[], []⟩).recipes
    ∧ pocInputItem [] "Carbon,xy" = none
    ∧ ({ inputs := [{ id := "missing_carbon", name := "Carbon", quantity := 2 }]
         output := { id := "missing_condensed_carbon", name := "Condensed Carbon",
                     quantity := 1 }
         time := "0.18"
         operation := "Requested Operation: Condense Carbon" } : PocRecipe).inputs
      = ["Carbon,2"].filterMap (pocInputItem []) := by
  have h := C7_amended_quantity_handling
  have h1 := h.1 [] "it" 0 ⟨[], []⟩ "Oxygen,abc;Carbon,2;1;0.18%Condense Carbon"
    ["Oxygen,abc", "Carbon,2"] "1" "0.18%Condense Carbon" "Oxygen,abc"
    (by decide) (by decide) (by decide) (by decide)
  refine ⟨h1.1, h1.2, h.2.1 [] "Carbon,xy" "Carbon" "xy" (by decide) rfl, ?_⟩
  exact h.2.2 [] "Carbon,2;1;0.18%Condense Carbon" ["Carbon,2"] "1"
    "0.18%Condense Carbon" _ (by decide) rfl

/-- Witness for the amended C4 at a concrete item write and concrete
refinery/cooking recipe writes. -/
theorem C4_amended_witness :
    ((saveItemToDb ⟨[], ⟨[], []⟩, ⟨[], []⟩⟩ c4Page "rawMaterials").items.filter
        (fun r => r.id == c4Page.id)) = [writeRow c4Page "rawMaterials"]
    ∧ ((saveItemToDb ⟨[], ⟨[], []⟩, ⟨[], []⟩⟩ c4Page "rawMaterials").items.filter
        (fun r => r.id == "zz"))
      = (⟨[], ⟨[], []⟩, ⟨[], []⟩⟩ : DbState).items.filter (fun r => r.id == "zz")
    ∧ ((refineryLineStep [] "it" 0 "Carbon,2;1;1.5%Smelt" ⟨[], []⟩).recipes.filter
        (fun r => r.recipe_id == refRecipeId "it" 0))
      = [refineryRowOf "it" 0 "Carbon,2;1;1.5%Smelt"]
    ∧ ((cookingLineStep [] "it" 0 "Carbon,2;1;1.5%Smelt" ⟨[], []⟩).ingredients.filter
        (fun r => r.recipe_id == cookRecipeId "it" 0))
      = (⟨[], []⟩ : RecipeDb).ingredients.filter
          (fun r => r.recipe_id == cookRecipeId "it" 0)
          ++ cookingIngRowsOf [] "it" 0 "Carbon,2;1;1.5%Smelt" := by
  have h := C4_amended_upsert_semantics
  exact ⟨(h.1 ⟨[], ⟨[], []⟩, ⟨[], []⟩⟩ c4Page "rawMaterials").1,
    (h.1 ⟨[], ⟨[], []⟩, ⟨[], []⟩⟩ c4Page "rawMaterials").2 "zz" (by decide),
    (h.2.1 [] "it" 0 "Carbon,2;1;1.5%Smelt" ⟨[], []⟩ (by decide)).1,
    (h.2.2 [] "it" 0 "Carbon,2;1;1.5%Smelt" ⟨[], []⟩ (by decide)).2⟩

/-- C2: the classifier evaluates its predicate groups in exactly the
canonical priority order (rawMaterials, fish, cooking, nutrientProcessor,
products, trade, buildings, technology, curiosities, others) and returns
the label of the first group whose predicate is true; for title `"Carbon"`
with infobox `{type: "element"}` it returns `"rawMaterials"`. -/
theorem C2_classifier_canonical_order :
    (∀ d : ItemData,
      classify_item d = firstMatchLabel canonicalCascade "others" (lowerFields d))
    ∧ classify_item carbonItem = "rawMaterials" :=
  ⟨fun _ => rfl, by decide⟩

/-- C3: a name that matches no stored item by any lookup stage always
resolves (totally, without raising) to a nonempty placeholder beginning
with `missing_`; for a nonempty name the placeholder is
`missing_<normalized-name>`, and the empty name resolves to
`missing_unknown`. -/
theorem C3_unresolved_placeholder (items : List ItemRow) (name : String)
    (h1 : getItemIdByName items name = none)
    (h2 : findCaseInsensitive items name = none)
    (h3 : findLike items name = none) :
    strStartsWith (resolveItemNameToId items name) "missing_" = true
    ∧ resolveItemNameToId items name ≠ ""
    ∧ (name ≠ "" → resolveItemNameToId items name = "missing_" ++ pyNormalizeName name)
    ∧ resolveItemNameToId items "" = "missing_unknown" := by
  by_cases hn : name = ""
  · subst hn
    exact ⟨rfl, show ("missing_unknown" : String) ≠ "" by decide,
      fun hc => absurd rfl hc, rfl⟩
  · have hb : (name == "") = false := by
      rw [Bool.eq_false_iff]
      intro e
      exact hn (by rw [beq_iff_eq] at e; exact e)
    have hr : resolveItemNameToId items name = "missing_" ++ pyNormalizeName name := by
      unfold resolveItemNameToId
      rw [if_neg (by simp [hb]), h1]
      unfold resolveFallback
      rw [h2, h3]
    refine ⟨?_, ?_, fun _ => hr, rfl⟩
    · rw [hr]
      show startsWithL ("missing_" ++ pyNormalizeName name).data "missing_".data = true
      rw [String.data_append]
      exact startsWithL_append _ _
    · rw [hr]
      intro he
      have hd := congrArg String.data he
      rw [String.data_append] at hd
      simp at hd

/-- Witness for C3 at the concrete unresolvable name `"Foo Bar"` over an
empty items table. -/
theorem C3_witness :
    strStartsWith (resolveItemNameToId [] "Foo Bar") "missing_" = true
    ∧ resolveItemNameToId [] "Foo Bar" ≠ ""
    ∧ ("Foo Bar" ≠ "" →
        resolveItemNameToId [] "Foo Bar" = "missing_" ++ pyNormalizeName "Foo Bar")
    ∧ resolveItemNameToId [] "" = "missing_unknown" :=
  C3_unresolved_placeholder [] "Foo Bar" rfl rfl rfl

/-- C5: a recipe line with fewer than 3 semicolon-delimited parts makes the
extractor's parser return `None`, makes both save loops leave the database
untouched for that line, and the enumeration continues with the sibling
lines at the next index. -/
theorem C5_short_line_returns_null (line : String)
    (h : (pySplit ';' line).length < 3) :
    (∀ cache, parsePocRefineLine cache line = none)
    ∧ (∀ items itemId i st, refineryLineStep items itemId i line st = st)
    ∧ (∀ items itemId i st, cookingLineStep items itemId i line st = st)
    ∧ (∀ items itemId i ls st,
        saveRecipesAux (refineryLineStep items itemId) i (line :: ls) st =
          saveRecipesAux (refineryLineStep items itemId) (i + 1) ls st)
    ∧ (∀ items itemId i ls st,
        saveRecipesAux (cookingLineStep items itemId) i (line :: ls) st =
          saveRecipesAux (cookingLineStep items itemId) (i + 1) ls st) := by
  have hr : ∀ (items : List ItemRow) itemId i st,
      refineryLineStep items itemId i line st = st := by
    intro items itemId i st
    unfold refineryLineStep
    simp [h]
  have hc : ∀ (items : List ItemRow) itemId i st,
      cookingLineStep items itemId i line st = st := by
    intro items itemId i st
    unfold cookingLineStep
    simp [h]
  refine ⟨?_, hr, hc, ?_, ?_⟩
  · intro cache
    unfold parsePocRefineLine
    simp [h]
  · intro items itemId i ls st
    rw [saveRecipesAux, hr]
  · intro items itemId i ls st
    rw [saveRecipesAux, hc]

/-- Witness for C5 at the concrete one-part line `"Carbon,2"`. -/
theorem C5_witness :
    parsePocRefineLine [] "Carbon,2" = none
    ∧ refineryLineStep [] "it" 0 "Carbon,2" ⟨[], []⟩ = ⟨[], []⟩
    ∧ cookingLineStep [] "it" 0 "Carbon,2" ⟨[], []⟩ = ⟨[], []⟩
    ∧ saveRecipesAux (refineryLineStep [] "it") 0 ["Carbon,2", "Oxygen,1;1;1.5%Op"] ⟨[], []⟩ =
        saveRecipesAux (refineryLineStep [] "it") 1 ["Oxygen,1;1;1.5%Op"] ⟨[], []⟩
    ∧ saveRecipesAux (cookingLineStep [] "it") 0 ["Carbon,2"] ⟨[], []⟩ =
        saveRecipesAux (cookingLineStep [] "it") 1 [] ⟨[], []⟩ := by
  have h := C5_short_line_returns_null "Carbon,2" (by decide)
  exact ⟨h.1 [], h.2.1 [] "it" 0 _, h.2.2.1 [] "it" 0 _,
    h.2.2.2.1 [] "it" 0 _ _, h.2.2.2.2 [] "it" 0 _ _⟩

/-- C8: exported items within a category are ordered by title, exported
recipes by recipe id, and export is a pure read of the database: it leaves
the state unchanged, so re-running it over unchanged stored data yields the
identical record list (hence byte-identical serialized output, serialization
being a function of that list). -/
theorem C8_export_ordered_idempotent :
    (∀ (st : DbState) (group : String),
      List.Sorted recordTitleLE (exportGroupFromDb st group))
    ∧ (∀ st : DbState, List.Sorted recipeRecordIdLE (exportRefineryRecipes st))
    ∧ (∀ st : DbState, List.Sorted recipeRecordIdLE (exportCookingRecipes st))
    ∧ (∀ (st : DbState) (group : String),
        (exportGroupRun st group).2 = st
        ∧ (exportGroupRun (exportGroupRun st group).2 group).1
          = (exportGroupRun st group).1)
    ∧ (∀ st : DbState,
        (exportRefineryRun st).2 = st
        ∧ (exportRefineryRun (exportRefineryRun st).2).1 = (exportRefineryRun st).1) := by
  refine ⟨?_, ?_, ?_, fun st group => ⟨rfl, rfl⟩, fun st => ⟨rfl, rfl⟩⟩
  · intro st group
    unfold exportGroupFromDb
    exact List.Pairwise.map itemToRecord (fun a b hab => hab)
      (List.sorted_insertionSort itemTitleLE
        (st.items.filter (fun r => r.group_name == group)))
  · intro st
    unfold exportRefineryRecipes exportRecipesFrom
    exact List.Pairwise.map _ (fun a b hab => hab)
      (List.sorted_insertionSort recipeIdLE st.refinery.recipes)
  · intro st
    unfold exportCookingRecipes exportRecipesFrom
    exact List.Pairwise.map _ (fun a b hab => hab)
      (List.sorted_insertionSort recipeIdLE st.cooking.recipes)

/-- C9 counterexample: with one stored raw-materials item and zero fish
items, the driver's export loop writes only `data/RawMaterials.json` — the
`data/Fish.json` file is omitted, not written as an empty array. -/
theorem C9_counterexample :
    (mainItemExportFiles c9Counts c9State).map Prod.fst = ["data/RawMaterials.json"]
    ∧ "data/Fish.json" ∉ (mainItemExportFiles c9Counts c9State).map Prod.fst
    ∧ c9State.items.filter (fun r => r.group_name == "fish") = []
    ∧ ("fish", "Fish.json") ∈ targetGroups := by
  refine ⟨by decide, by decide, by decide, by decide⟩

/-- C9 (amended): `export_group_from_db` invoked on a label with zero
persisted items does produce an empty record list (an empty JSON array, not
an error); but the driver's loop skips labels whose per-run count is zero
and `export_groups_to_json` iterates only labels present in the items
table, so the per-label file is omitted rather than written empty. -/
theorem C9_amended_empty_group_export (st : DbState) (g : String)
    (h : st.items.filter (fun r => r.group_name == g) = []) :
    exportGroupFromDb st g = []
    ∧ (∀ counts : String → Nat, ∀ gf ∈ targetGroups, gf.1 = g → counts g = 0 →
        ("data/" ++ gf.2) ∉ (mainItemExportFiles counts st).map Prod.fst)
    ∧ (∀ db : List XItemRow, db.filter (fun r => r.group_name == some g) = [] →
        ∀ fname ∈ (exportGroupsToJson db none).map Prod.fst, fname ≠ g ++ ".json") := by
  refine ⟨?_, ?_, ?_⟩
  · unfold exportGroupFromDb
    rw [h]
    rfl
  · intro counts gf hgf hgf1 hcz hmem
    rw [List.mem_map] at hmem
    obtain ⟨pair, hpair, hfst⟩ := hmem
    unfold mainItemExportFiles at hpair
    rw [List.mem_filterMap] at hpair
    obtain ⟨gf', hgf', hsome⟩ := hpair
    by_cases hcond : 0 < counts gf'.1
    · rw [if_pos hcond] at hsome
      have hpaireq := Option.some_inj.mp hsome
      have hfname : "data/" ++ gf'.2 = "data/" ++ gf.2 := by
        rw [← hfst, ← hpaireq]
      have h2 : gf'.2 = gf.2 := by
        have hdp := congrArg String.data hfname
        rw [String.data_append, String.data_append] at hdp
        exact String.ext (List.append_cancel_left hdp)
      have hfn : ∀ a ∈ targetGroups, ∀ b ∈ targetGroups, a.2 = b.2 → a.1 = b.1 := by
        decide
      have h1 : gf'.1 = gf.1 := hfn gf' hgf' gf hgf h2
      rw [h1, hgf1] at hcond
      omega
    · rw [if_neg hcond] at hsome
      exact absurd hsome (by simp)
  · intro db hdb fname hf he
    rw [List.mem_map] at hf
    obtain ⟨pair, hpair, hfst⟩ := hf
    unfold exportGroupsToJson at hpair
    rw [List.mem_map] at hpair
    obtain ⟨g', hg', hpe⟩ := hpair
    have hgeq : g' = g := by
      have hj : g' ++ ".json" = g ++ ".json" := by
        rw [← he, ← hfst, ← hpe]
      have hdp := congrArg String.data hj
      rw [String.data_append, String.data_append] at hdp
      exact String.ext (List.append_cancel_right hdp)
    subst hgeq
    unfold availableGroups at hg'
    have hgmem := mem_of_mem_dedupFirst _ g' hg'
    obtain ⟨r, hr, hrg⟩ := List.mem_filterMap.mp hgmem
    have hrin : r ∈ db.filter (fun r => r.group_name == some g') := by
      rw [List.mem_filter]
      refine ⟨hr, ?_⟩
      rw [hrg]
      simp
    rw [hdb] at hrin
    exact absurd hrin (List.not_mem_nil r)

/-- Witness for the amended C9 at concrete databases with zero fish
items. -/
theorem C9_amended_witness :
    exportGroupFromDb c9State "fish" = []
    ∧ ("data/" ++ ("fish", "Fish.json").2)
      ∉ (mainItemExportFiles c9Counts c9State).map Prod.fst
    ∧ "rawMaterials.json" ≠ "fish" ++ ".json" := by
  have h := C9_amended_empty_group_export c9State "fish" (by decide)
  refine ⟨h.1, h.2.1 c9Counts ("fish", "Fish.json") (by decide) rfl (by decide), ?_⟩
  exact h.2.2 [c9XRow] (by decide) "rawMaterials.json" (by decide)

/-- C10: every exported refinery and cooking recipe carries the constant
output quantity 1, and the second-to-last (output quantity) component of a
recipe line has no effect whatsoever on the persisted state: two lines
differing only in that component produce identical database writes. -/
theorem C10_output_quantity_constant :
    (∀ st : DbState, ∀ r ∈ exportRefineryRecipes st, r.output_quantity = 1)
    ∧ (∀ st : DbState, ∀ r ∈ exportCookingRecipes st, r.output_quantity = 1)
    ∧ (∀ (items : List ItemRow) (itemId : String) (i : Nat) (st : RecipeDb)
        (l1 l2 : String) (comps : List String) (o1 o2 tc : String),
        pySplit ';' l1 = comps ++ [o1, tc] → pySplit ';' l2 = comps ++ [o2, tc] →
        refineryLineStep items itemId i l1 st = refineryLineStep items itemId i l2 st
        ∧ cookingLineStep items itemId i l1 st = cookingLineStep items itemId i l2 st) := by
  refine ⟨?_, ?_, ?_⟩
  · intro st r hr
    unfold exportRefineryRecipes exportRecipesFrom at hr
    obtain ⟨x, _, hx⟩ := List.mem_map.mp hr
    rw [← hx]
  · intro st r hr
    unfold exportCookingRecipes exportRecipesFrom at hr
    obtain ⟨x, _, hx⟩ := List.mem_map.mp hr
    rw [← hx]
  · intro items itemId i st l1 l2 comps o1 o2 tc h1 h2
    have hrow : refineryRowOf itemId i l1 = refineryRowOf itemId i l2 := by
      simp only [refineryRowOf]
      rw [h1, h2, lastD_append_two, lastD_append_two]
    have hcrow : cookingRowOf itemId i l1 = cookingRowOf itemId i l2 := by
      simp only [cookingRowOf]
      rw [h1, h2, lastD_append_two, lastD_append_two]
    have hing : refineryIngRowsOf items itemId i l1 = refineryIngRowsOf items itemId i l2 := by
      rw [refineryIngRowsOf_eq items itemId i l1 comps o1 tc h1,
        refineryIngRowsOf_eq items itemId i l2 comps o2 tc h2]
    have hcing : cookingIngRowsOf items itemId i l1 = cookingIngRowsOf items itemId i l2 := by
      rw [cookingIngRowsOf_eq items itemId i l1 comps o1 tc h1,
        cookingIngRowsOf_eq items itemId i l2 comps o2 tc h2]
    constructor
    · simp only [refineryLineStep]
      rw [h1, h2, hrow, hing]
      simp
    · simp only [cookingLineStep]
      rw [h1, h2, hcrow, hcing]
      simp

/-- Witness for C10: an exported recipe with output quantity 1, and two
concrete lines differing only in output-quantity component (1 vs 99)
producing identical writes. -/
theorem C10_witness :
    c10Record.output_quantity = 1
    ∧ refineryLineStep [] "it" 0 "Carbon,2;1;1.5%Smelt" ⟨[], []⟩ =
        refineryLineStep [] "it" 0 "Carbon,2;99;1.5%Smelt" ⟨[], []⟩
    ∧ cookingLineStep [] "it" 0 "Carbon,2;1;1.5%Smelt" ⟨[], []⟩ =
        cookingLineStep [] "it" 0 "Carbon,2;99;1.5%Smelt" ⟨[], []⟩ := by
  have hmem : c10Record ∈ exportRefineryRecipes c10State := by
    rw [show exportRefineryRecipes c10State = [c10Record] from rfl]
    exact List.mem_singleton.mpr rfl
  have h3 := C10_output_quantity_constant.2.2 [] "it" 0 ⟨[], []⟩
    "Carbon,2;1;1.5%Smelt" "Carbon,2;99;1.5%Smelt" ["Carbon,2"] "1" "99" "1.5%Smelt"
    (by decide) (by decide)
  exact ⟨C10_output_quantity_constant.1 c10State c10Record hmem, h3.1, h3.2⟩

end NMS
